import Mathlib

/-!
Verification of the ats-buddy resume-analysis pipeline against its
natural-language specification.

The Python sources are shallowly embedded: bytes are `List Nat` (each entry a
byte value), Python `str` values are Lean `String`/`List Char`, Python dicts
returned by the handlers become Lean structures, and the external AWS
collaborators (S3, Textract, DynamoDB, Bedrock, Comprehend) are abstracted as
explicit function parameters / state, exactly at the boto3 call boundary.
All definitions are executable (fuel-based structural recursion where the
Python uses unbounded loops or `while`), so concrete witnesses evaluate by
`decide` / `rfl`.
-/

namespace AtsBuddy

set_option maxRecDepth 16384

/-! ## Generic substring / split machinery

Models Python `bytes.split`, the `in` operator on `bytes`/`str`, `bytes.strip`,
`bytes.rstrip`, and `str.strip`.  Everything is generic over the element type
so the same definitions serve byte strings (`List Nat`) and text (`List Char`).
-/

/-- First index at which `sep` occurs as a contiguous sublist of `xs`
(Python `bytes.find` / the scan underlying `split` and `in`). -/
def findSub {α : Type} [DecidableEq α] (sep : List α) : List α → Option Nat
  | [] => if sep <+: ([] : List α) then some 0 else none
  | x :: t => if sep <+: (x :: t) then some 0 else (findSub sep t).map (· + 1)

/-- Python `sep in xs`: `sep` occurs as a contiguous sublist of `xs`
(defined through the scan so that it is decidable by computation). -/
def OccursIn {α : Type} [DecidableEq α] (sep xs : List α) : Prop :=
  (findSub sep xs).isSome = true

instance {α : Type} [DecidableEq α] (sep xs : List α) : Decidable (OccursIn sep xs) :=
  inferInstanceAs (Decidable (_ = true))

/-- Bounded-prefix cleanliness: no occurrence of `sep` starts strictly inside
`a` when `a` is followed by `sep` (and then anything).  This is the
"boundary marker occurs only where intended" well-formedness condition and is
decidable, hence checkable on concrete data. -/
def CleanBefore {α : Type} [DecidableEq α] (sep a : List α) : Prop :=
  ∀ i < a.length, ¬ sep <+: (a ++ sep).drop i

instance {α : Type} [DecidableEq α] (sep a : List α) : Decidable (CleanBefore sep a) :=
  Nat.decidableBallLT _ _

/-- Fuel-driven worker for Python `xs.split(sep)` (full split, non-overlapping,
left to right).  Fuel `xs.length` always suffices for non-empty `sep`. -/
def splitAux {α : Type} [DecidableEq α] (sep : List α) : Nat → List α → List (List α)
  | 0, xs => [xs]
  | fuel + 1, xs =>
    match findSub sep xs with
    | none => [xs]
    | some i => xs.take i :: splitAux sep fuel (xs.drop (i + sep.length))

/-- Python `xs.split(sep)` for non-empty `sep` (the only way the handler calls
it: the separator is always `b"--" + boundary`). -/
def pySplit {α : Type} [DecidableEq α] (xs sep : List α) : List (List α) :=
  splitAux sep xs.length xs

/-! ## Python strip / rstrip -/

/-- Python byte-string whitespace, the set stripped by `bytes.strip()`:
tab, LF, VT, FF, CR, space. -/
def isWsByte (b : Nat) : Bool :=
  b = 9 || b = 10 || b = 11 || b = 12 || b = 13 || b = 32

/-- Python string whitespace as stripped by `str.strip()`, restricted to the
ASCII whitespace characters (the Python originals additionally strip rare
Unicode space characters, which never arise in the handler's inputs). -/
def isWsChar (c : Char) : Bool :=
  c = ' ' || c = '\t' || c = '\n' || c = '\x0b' || c = '\x0c' || c = '\r'

/-- Membership in the byte set `b"\r\n--"` stripped from the right of each
multipart part body (handler.py lines 1028 and 1037). -/
def isCrLfDash (b : Nat) : Bool :=
  b = 13 || b = 10 || b = 45

/-- Generic both-ends strip with predicate `p` (Python `strip`). -/
def pyStripWith {α : Type} (p : α → Bool) (l : List α) : List α :=
  (l.dropWhile p).rdropWhile p

/-- Python `bytes.strip()`. -/
def pyStrip (l : List Nat) : List Nat := pyStripWith isWsByte l

/-- Python `str.strip()` on the character list of a string. -/
def pyStripChars (l : List Char) : List Char := pyStripWith isWsChar l

/-- Python `content.rstrip(b"\r\n--")`. -/
def pyRstripCrLfDash (l : List Nat) : List Nat := l.rdropWhile isCrLfDash

/-! ## UTF-8 codec

Models the implicit `str` ↔ `bytes` conversions of the Python source:
`str.encode("utf-8")` and `bytes.decode("utf-8", errors="ignore")`.  The
encoder is the standard UTF-8 encoding of a scalar value; the decoder accepts
exactly the valid encodings (rejecting overlong forms, surrogates and values
above U+10FFFF, as CPython does) and skips bytes on which decoding fails.
-/

/-- UTF-8 encoding of one scalar value, over `Nat` bytes. -/
def utf8EncodeCharNat (c : Char) : List Nat :=
  if c.toNat < 0x80 then [c.toNat]
  else if c.toNat < 0x800 then [0xC0 + c.toNat / 64, 0x80 + c.toNat % 64]
  else if c.toNat < 0x10000 then
    [0xE0 + c.toNat / 4096, 0x80 + c.toNat / 64 % 64, 0x80 + c.toNat % 64]
  else
    [0xF0 + c.toNat / 262144, 0x80 + c.toNat / 4096 % 64, 0x80 + c.toNat / 64 % 64,
      0x80 + c.toNat % 64]

/-- Python `s.encode("utf-8")` as a byte list. -/
def strBytes (s : String) : List Nat := s.data.flatMap utf8EncodeCharNat

/-- Decode a single UTF-8 sequence from the front, returning the character and
the remaining bytes; `none` on any malformed prefix. -/
def utf8DecodeOne : List Nat → Option (Char × List Nat)
  | [] => none
  | b0 :: rest =>
    if b0 < 0x80 then some (Char.ofNat b0, rest)
    else if b0 < 0xC2 then none
    else if b0 < 0xE0 then
      match rest with
      | b1 :: r =>
        if 0x80 ≤ b1 ∧ b1 < 0xC0 then
          some (Char.ofNat ((b0 - 0xC0) * 64 + (b1 - 0x80)), r)
        else none
      | [] => none
    else if b0 < 0xF0 then
      match rest with
      | b1 :: b2 :: r =>
        if (0x80 ≤ b1 ∧ b1 < 0xC0) ∧ (0x80 ≤ b2 ∧ b2 < 0xC0) ∧
            0x800 ≤ (b0 - 0xE0) * 4096 + (b1 - 0x80) * 64 + (b2 - 0x80) ∧
            ((b0 - 0xE0) * 4096 + (b1 - 0x80) * 64 + (b2 - 0x80) < 0xD800 ∨
              0xE000 ≤ (b0 - 0xE0) * 4096 + (b1 - 0x80) * 64 + (b2 - 0x80)) then
          some (Char.ofNat ((b0 - 0xE0) * 4096 + (b1 - 0x80) * 64 + (b2 - 0x80)), r)
        else none
      | _ => none
    else if b0 < 0xF5 then
      match rest with
      | b1 :: b2 :: b3 :: r =>
        if (0x80 ≤ b1 ∧ b1 < 0xC0) ∧ (0x80 ≤ b2 ∧ b2 < 0xC0) ∧
            (0x80 ≤ b3 ∧ b3 < 0xC0) ∧
            0x10000 ≤ (b0 - 0xF0) * 262144 + (b1 - 0x80) * 4096 + (b2 - 0x80) * 64 + (b3 - 0x80) ∧
            (b0 - 0xF0) * 262144 + (b1 - 0x80) * 4096 + (b2 - 0x80) * 64 + (b3 - 0x80) < 0x110000 then
          some (Char.ofNat
            ((b0 - 0xF0) * 262144 + (b1 - 0x80) * 4096 + (b2 - 0x80) * 64 + (b3 - 0x80)), r)
        else none
      | _ => none
    else none

/-- Fuel-driven worker for `bytes.decode("utf-8", errors="ignore")`: decode a
character when possible, otherwise skip one byte. -/
def utf8DecodeAux : Nat → List Nat → List Char
  | 0, _ => []
  | fuel + 1, xs =>
    match utf8DecodeOne xs with
    | some (c, r) => c :: utf8DecodeAux fuel r
    | none =>
      match xs with
      | [] => []
      | _ :: t => utf8DecodeAux fuel t

/-- Python `xs.decode("utf-8", errors="ignore")`. -/
def pyDecodeIgnore (xs : List Nat) : String := ⟨utf8DecodeAux xs.length xs⟩

/-! ## MultipartParser — `parse_multipart_form_data` (handler.py lines 966-1058)

The API Gateway event is modelled at the parser's working level: the
`content-type` header value and the request body as bytes (the body is a byte
string after the `isBase64Encoded` / `encode("utf-8")` normalisation of
handler.py lines 985-991, which is transport plumbing outside the parser
proper).
-/

/-- Python `pat in s` on strings. -/
def StrContains (s pat : String) : Prop := OccursIn pat.data s.data

instance (s pat : String) : Decidable (StrContains s pat) :=
  inferInstanceAs (Decidable (OccursIn pat.data s.data))

/-- Boundary extraction from the content-type header (handler.py lines
994-999): split on `";"`, strip each piece, take the text after `"boundary="`
of the first piece starting with it, and strip surrounding quote characters. -/
def extractBoundary (ct : String) : Option (List Char) :=
  (pySplit ct.data [';']).findSome? (fun part =>
    if "boundary=".data <+: pyStripChars part then
      some (pyStripWith (fun c => c = '"') ((pyStripChars part).drop 9))
    else none)

/-- Model of `re.search(r'filename="([^"]+)"', ...)` applied at one position:
match the literal `filename="`, then one or more non-quote characters, then a
closing quote. -/
def filenameMatchAt (l : List Char) : Option (List Char) :=
  if "filename=\"".data <+: l then
    if (l.drop 10).takeWhile (fun c => c ≠ '"') ≠ [] ∧
        ((l.drop 10).takeWhile (fun c => c ≠ '"')).length < (l.drop 10).length then
      some ((l.drop 10).takeWhile (fun c => c ≠ '"'))
    else none
  else none

/-- Model of `re.search(r'filename="([^"]+)"', ...)`: first matching position
scanning left to right (handler.py line 1032). -/
def extractFilename : List Char → Option (List Char)
  | [] => none
  | c :: t =>
    match filenameMatchAt (c :: t) with
    | some n => some n
    | none => extractFilename t

/-- Loop state of the `for part in parts` loop (handler.py lines 1008-1037). -/
structure MPState where
  pdfContent : Option (List Nat)
  jobDescription : Option String
  originalFilename : String
deriving DecidableEq

/-- Result of `parse_multipart_form_data`: the Python dict with
`success=False` and an error, or `success=True` with the three payload
fields. -/
inductive MPResult where
  | err (msg : String)
  | ok (pdfContent : List Nat) (jobDescription : String) (originalFilename : String)
deriving DecidableEq

/-- Body of the part loop for one part whose header block was split off
(handler.py lines 1024-1037): classify by field name, store the
`\r\n--`-right-stripped content, extract a filename for file parts. -/
def mpHandlePart (st : MPState) (headersSection content : List Nat) : MPState :=
  if StrContains (pyDecodeIgnore headersSection) "name=\"resume\"" ∨
      StrContains (pyDecodeIgnore headersSection) "name=\"pdf\"" then
    { st with
      pdfContent := some (pyRstripCrLfDash content),
      originalFilename :=
        match extractFilename (pyDecodeIgnore headersSection).data with
        | some n => String.mk n
        | none => st.originalFilename }
  else if StrContains (pyDecodeIgnore headersSection) "name=\"jobDescription\"" ∨
      StrContains (pyDecodeIgnore headersSection) "name=\"job_description\"" then
    { st with
      jobDescription :=
        some (String.mk (pyStripChars (pyDecodeIgnore (pyRstripCrLfDash content)).data)) }
  else st

/-- One iteration of the part loop (handler.py lines 1012-1037): skip blank
parts and the terminal `--` marker, split the part at the first blank line
(`\r\n\r\n`, else `\n\n`), and hand the pieces to the classifier. -/
def mpProcessPart (st : MPState) (part : List Nat) : MPState :=
  if pyStrip part = [] ∨ pyStrip part = [45, 45] then st
  else
    match findSub [13, 10, 13, 10] part with
    | some i => mpHandlePart st (part.take i) (part.drop (i + 4))
    | none =>
      match findSub [10, 10] part with
      | some i => mpHandlePart st (part.take i) (part.drop (i + 2))
      | none => st

/-- Final field validation (handler.py lines 1040-1054): file part required
(`not pdf_content` also rejects empty bytes), text part required, and a
50-character floor on the stripped job description. -/
def mpFinalize (st : MPState) : MPResult :=
  match st.pdfContent with
  | none => .err "PDF file is required"
  | some pdf =>
    if pdf = [] then .err "PDF file is required"
    else
      match st.jobDescription with
      | none => .err "Job description is required"
      | some jd =>
        if jd = "" then .err "Job description is required"
        else if (pyStripChars jd.data).length < 50 then
          .err "Job description must be at least 50 characters"
        else .ok pdf jd st.originalFilename

/-- The part-splitting phase (handler.py lines 1005-1037) once the boundary
has been located: build `b"--" + boundary`, split the body, run the loop, and
validate the collected fields. -/
def parseWithBoundary (boundary : List Char) (body : List Nat) : MPResult :=
  mpFinalize
    ((pySplit body (strBytes ⟨'-' :: '-' :: boundary⟩)).foldl mpProcessPart
      ⟨none, none, "unknown.pdf"⟩)

/-- Python `parse_multipart_form_data` (handler.py lines 966-1058) over the
content-type header value and the raw body bytes. -/
def parse_multipart_form_data (contentType : String) (body : List Nat) : MPResult :=
  if ¬ ("multipart/form-data".data <+: contentType.data) then
    .err "Content-Type must be multipart/form-data"
  else
    match extractBoundary contentType with
    | none => .err "No boundary found in Content-Type header"
    | some boundary => parseWithBoundary boundary body

/-! ### Synthetic well-formed multipart body (the round-trip construction) -/

/-- CRLF as bytes. -/
def crlfB : List Nat := [13, 10]

/-- Fixed boundary token of the synthetic body. -/
def mpSep : List Nat := strBytes "--XBOUNDARY1234"

/-- Header block of the file part. -/
def mpHdrFile : String :=
  "Content-Disposition: form-data; name=\"resume\"; filename=\"test.pdf\""

/-- Header block of the job-description part. -/
def mpHdrJob : String := "Content-Disposition: form-data; name=\"job_description\""

/-- One part as it appears between boundary markers: CRLF, a header line, a
blank line, the content, CRLF. -/
def mpSegOf (hdr : String) (content : List Nat) : List Nat :=
  crlfB ++ strBytes hdr ++ crlfB ++ crlfB ++ content ++ crlfB

/-- The split segment corresponding to the file part. -/
def mpSeg1 (fileBytes : List Nat) : List Nat := mpSegOf mpHdrFile fileBytes

/-- The split segment corresponding to the job-description part. -/
def mpSeg2 (jd : String) : List Nat := mpSegOf mpHdrJob (strBytes jd)

/-- A well-formed multipart body with one named file part and one named text
part, terminated by the closing `--boundary--` marker. -/
def mkMultipartBody (fileBytes : List Nat) (jd : String) : List Nat :=
  mpSep ++ mpSeg1 fileBytes ++ mpSep ++ mpSeg2 jd ++ mpSep ++ [45, 45]

/-- A multipart body with only the job-description part and no file part. -/
def mkBodyNoFile (jd : String) : List Nat :=
  mpSep ++ mpSeg2 jd ++ mpSep ++ [45, 45]

/-- The matching content-type header value. -/
def mpContentType : String := "multipart/form-data; boundary=XBOUNDARY1234"

/-! ## PIIScrubber — `apply_pii_redaction_to_text` (handler.py lines 21-93)

The Comprehend call is abstracted as a detector function from the submitted
text to a list of entities (each with a confidence score and character
offsets).  The source calls `comprehend.detect_pii_entities` with
`Text=text[:5000]` and applies the returned offsets to the full text,
processing entities in descending `BeginOffset` order; a `ClientError` or any
other exception returns the original text with `success=True`, so the
function is total either way.
-/

/-- One detected PII entity (Comprehend response element). -/
structure PiiEntity where
  score : Rat
  beginOffset : Nat
  endOffset : Nat
  entityType : String
deriving DecidableEq

/-- Result dict of `apply_pii_redaction_to_text`: `success` is always true. -/
structure PiiRes where
  success : Bool
  text : List Char
  redacted : Bool
deriving DecidableEq

/-- Stable insertion for the descending `BeginOffset` sort
(`entities.sort(key=..., reverse=True)`, handler.py line 56). -/
def insertEntityDesc (e : PiiEntity) : List PiiEntity → List PiiEntity
  | [] => [e]
  | x :: xs =>
    if e.beginOffset ≥ x.beginOffset then e :: x :: xs else x :: insertEntityDesc e xs

/-- Stable sort by descending `BeginOffset`. -/
def sortByBeginDesc (l : List PiiEntity) : List PiiEntity :=
  l.foldr insertEntityDesc []

/-- One loop iteration (handler.py lines 61-78): redact a high-confidence
entity (threshold 0.7) by splicing in at most 8 mask characters, counting
the redactions. -/
def redactEntity (acc : List Char × Nat) (e : PiiEntity) : List Char × Nat :=
  if 7 / 10 ≤ e.score then
    (acc.1.take e.beginOffset ++
      List.replicate (min (e.endOffset - e.beginOffset) 8) '*' ++
      acc.1.drop e.endOffset, acc.2 + 1)
  else acc

/-- The redaction loop over the sorted entities. -/
def piiRedactLoop (entities : List PiiEntity) (text : List Char) : List Char × Nat :=
  (sortByBeginDesc entities).foldl redactEntity (text, 0)

/-- Python `apply_pii_redaction_to_text` (handler.py lines 21-93) with the
detector as a parameter.  Short or empty text skips detection entirely, the
detector sees only the first 5000 characters, and a zero redaction count
reports the original text. -/
def apply_pii_redaction_to_text (detect : List Char → List PiiEntity)
    (text : List Char) : PiiRes :=
  if text = [] ∨ (pyStripChars text).length < 10 then ⟨true, text, false⟩
  else if detect (text.take 5000) = [] then ⟨true, text, false⟩
  else if 0 < (piiRedactLoop (detect (text.take 5000)) text).2 then
    ⟨true, (piiRedactLoop (detect (text.take 5000)) text).1, true⟩
  else ⟨true, text, false⟩

/-! ## AnalysisEngine response repair — `_parse_analysis_response`
(bedrock_client.py lines 184-263)

The function slices the model response between the first `{` and the last
`}` and feeds it to `json.loads`; on success the top-level value is
necessarily a JSON object (the slice starts with `{`).  The JSON decode step
is abstracted: the embedded function takes `none` for a `JSONDecodeError`
and `some fields` for the decoded object, and models the validation and
repair stage (lines 208-256) exactly.
-/

/-- Python float values as produced by `json.loads` and `float(...)`:
a finite rational, or one of NaN / +inf / -inf (Python's `json.loads`
accepts `NaN`, `Infinity` and `-Infinity`). -/
inductive PyFloat where
  | rat (q : Rat)
  | nan
  | inf
  | ninf
deriving DecidableEq

/-- JSON values. -/
inductive JVal where
  | null
  | bool (b : Bool)
  | num (x : PyFloat)
  | str (s : String)
  | arr (xs : List JVal)
  | obj (fields : List (String × JVal))

/-- Dict lookup on decoded JSON object fields. -/
def jGet (fields : List (String × JVal)) (k : String) : Option JVal :=
  (fields.find? (fun p => p.1 == k)).map (·.2)

/-- Accumulate a digit string into a natural number. -/
def digitsToNat (l : List Char) : Nat :=
  l.foldl (fun a c => a * 10 + (c.toNat - 48)) 0

/-- Python `float(s)` on plain decimal literals: optional sign, digits,
optional fractional part (exponent forms and the `inf`/`nan` spellings are
not modelled; for the clamping invariant any successfully parsed value is
clamped and any parse failure falls to the default, so both outcomes are
covered). -/
def strToPyFloat (s : String) : Option PyFloat :=
  match pyStripChars s.data with
  | '-' :: t => (strToPyFloatDigits t).map (fun | .rat q => .rat (-q) | x => x)
  | '+' :: t => strToPyFloatDigits t
  | l => strToPyFloatDigits l
where
  strToPyFloatDigits (l : List Char) : Option PyFloat :=
    match l.dropWhile (fun c => c.isDigit) with
    | [] =>
      if l = [] then none
      else some (.rat (digitsToNat l))
    | '.' :: frac =>
      if frac.all (fun c => c.isDigit) ∧ (l.takeWhile (fun c => c.isDigit) ≠ [] ∨ frac ≠ []) then
        some (.rat ((digitsToNat (l.takeWhile (fun c => c.isDigit)) : Rat) +
          (digitsToNat frac : Rat) / (10 : Rat) ^ frac.length))
      else none
    | _ => none

/-- Python `float(value)` over a JSON value: numbers pass through, booleans
coerce to 0/1, strings are parsed, anything else raises (`none`). -/
def toPyFloat : JVal → Option PyFloat
  | .num x => some x
  | .bool b => some (.rat (if b then 1 else 0))
  | .str s => strToPyFloat s
  | _ => none

/-- Python `min(100, x)` (note `min(a, b)` returns `b` exactly when
`b < a`, so a NaN second argument yields `100`). -/
def pyMin100 : PyFloat → PyFloat
  | .rat q => if q < 100 then .rat q else .rat 100
  | .nan => .rat 100
  | .inf => .rat 100
  | .ninf => .ninf

/-- Python `max(0, y)` (returns `y` exactly when `y > 0`). -/
def pyMax0 : PyFloat → PyFloat
  | .rat q => if q > 0 then .rat q else .rat 0
  | .nan => .rat 0
  | .inf => .inf
  | .ninf => .rat 0

/-- The value when the score key holds a list (`isinstance` check): keep a
list as-is, otherwise replace by the empty list (bedrock_client.py lines
223-230). -/
def asArr : JVal → List JVal
  | .arr xs => xs
  | _ => []

/-- The `missing_skills` repair: keep a dict, otherwise substitute the empty
technical/soft dict (bedrock_client.py lines 226-227). -/
def asSkillsObj : JVal → JVal
  | .obj fs => .obj fs
  | _ => .obj [("technical", .arr []), ("soft", .arr [])]

/-- The three generic default suggestions (bedrock_client.py lines 234-240). -/
def suggestionDefaults : List JVal :=
  [.str "Review job description keywords and incorporate relevant ones into your resume",
   .str "Quantify your achievements with specific metrics and numbers",
   .str "Tailor your skills section to match the job requirements"]

/-- Suggestions padding: lists shorter than 3 are extended by the defaults
and truncated to 3 (bedrock_client.py lines 233-241). -/
def repairSuggestions (s : List JVal) : List JVal :=
  if s.length < 3 then (s ++ suggestionDefaults).take 3 else s

/-- The repaired analysis dict. -/
structure AnalysisParsed where
  missing_keywords : List JVal
  missing_skills : JVal
  suggestions : List JVal
  compatibility_score : PyFloat
  strengths : JVal
  areas_for_improvement : JVal

/-- Result of `_parse_analysis_response`. -/
inductive PAResult where
  | failure (error : String)
  | success (data : AnalysisParsed)

/-- Python `_parse_analysis_response` after the JSON decode
(bedrock_client.py lines 208-256): required-field checks, type repairs,
suggestions padding, score clamping with default, and optional-field
defaults. -/
def parse_analysis_response (decoded : Option (List (String × JVal))) : PAResult :=
  match decoded with
  | none => .failure "Invalid JSON format in AI response"
  | some fields =>
    if (jGet fields "missing_keywords").isNone then
      .failure "Missing required field in analysis: missing_keywords"
    else if (jGet fields "missing_skills").isNone then
      .failure "Missing required field in analysis: missing_skills"
    else if (jGet fields "suggestions").isNone then
      .failure "Missing required field in analysis: suggestions"
    else if (jGet fields "compatibility_score").isNone then
      .failure "Missing required field in analysis: compatibility_score"
    else
      .success
        { missing_keywords := asArr ((jGet fields "missing_keywords").getD .null)
          missing_skills := asSkillsObj ((jGet fields "missing_skills").getD .null)
          suggestions := repairSuggestions (asArr ((jGet fields "suggestions").getD .null))
          compatibility_score :=
            match toPyFloat ((jGet fields "compatibility_score").getD .null) with
            | some x => pyMax0 (pyMin100 x)
            | none => .rat 50
          strengths := (jGet fields "strengths").getD (.arr [])
          areas_for_improvement := (jGet fields "areas_for_improvement").getD (.arr []) }

/-- Result of a text-extraction call. -/
inductive ExtractOut where
  | ok (text : String)
  | err (msg : String)
deriving DecidableEq

/-! ## DeduplicationService and orchestrator (deduplication_service.py,
file_hash_utils.py, dynamodb_client.py, handler.py lines 221-379 and 514-688)

The AWS collaborators are abstracted exactly at the boto3 call boundary:
the object store and cache table are explicit state, the SHA-256 digest is an
abstract deterministic function, and Textract/Comprehend/Bedrock/report
building are deterministic functions of their call arguments (spec §5:
results are deterministic given identical input).  Fault injection switches
make individual AWS calls raise, which the Python wrappers catch. -/

/-- One resume-cache item (dynamodb_client.py lines 43-48). -/
structure CacheEntry where
  file_hash : String
  extracted_text : String
  original_filename : String
  ttl : Nat
deriving DecidableEq

/-- The DynamoDB resume-cache table: fingerprint → item. -/
def CacheSt : Type := String → Option CacheEntry

/-- The S3 object store: bucket → key → object bytes. -/
def S3St : Type := String → String → Option (List Nat)

/-- Fault-injection switches at the boto3 call boundary for the dedup layer:
a true switch makes the corresponding AWS call raise. -/
structure DedupFaults where
  s3GetFails : Bool
  ddbGetFails : Bool
  ddbPutFails : Bool
deriving DecidableEq

/-- The no-fault environment. -/
def noFaults : DedupFaults := ⟨false, false, false⟩

/-- Functional table update used by `put_item`. -/
def cacheInsert (st : CacheSt) (h : String) (en : CacheEntry) : CacheSt :=
  fun h2 => if h2 = h then some en else st h2

/-- Python `calculate_file_hash` (file_hash_utils.py lines 13-39): raises
`ValueError` on empty content, otherwise the SHA-256 hex digest (an abstract
deterministic function here). -/
def calculate_file_hash (sha : List Nat → String) (content : List Nat) :
    Except String String :=
  if content = [] then .error "File content cannot be None or empty"
  else .ok (sha content)

/-- Python `calculate_s3_file_hash` (file_hash_utils.py lines 42-63): download the
object and hash it; any exception (injected fault, missing object, empty
content) is caught and yields `None`. -/
def calculate_s3_file_hash (sha : List Nat → String) (s3 : S3St) (f : DedupFaults)
    (bucket key : String) : Option String :=
  if f.s3GetFails then none
  else
    match s3 bucket key with
    | none => none
    | some content =>
      match calculate_file_hash sha content with
      | .error _ => none
      | .ok h => some h

/-- Python `DynamoDBClient.get_resume_cache` (dynamodb_client.py lines 61-94): the
stored item, with every `ClientError`/exception caught and turned into
`None`. -/
def get_resume_cache (f : DedupFaults) (st : CacheSt) (h : String) : Option CacheEntry :=
  if f.ddbGetFails then none else st h

/-- Python `DynamoDBClient.put_resume_cache` (dynamodb_client.py lines 26-59):
stores the item with a 12-hour TTL and reports success; a raising call is
caught and reported as `False` with the table unchanged. -/
def put_resume_cache (f : DedupFaults) (now : Nat) (st : CacheSt)
    (h text fn : String) : Bool × CacheSt :=
  if f.ddbPutFails then (false, st)
  else (true, cacheInsert st h ⟨h, text, fn, now + 12 * 60 * 60⟩)

/-- Result dict of `check_file_deduplication`. -/
structure DedupResult where
  is_duplicate : Bool
  file_hash : Option String
  cached_data : Option CacheEntry
  message : String
deriving DecidableEq

/-- Python `DeduplicationService.check_file_deduplication`
(deduplication_service.py lines 23-85).  The local `filename` variable of
the source is used only in log lines.  The outer try/except contributes no
further behaviour here because each sub-call already absorbs its own AWS
failures. -/
def check_file_deduplication (sha : List Nat → String) (s3 : S3St) (f : DedupFaults)
    (st : CacheSt) (bucket key : String) : DedupResult :=
  match calculate_s3_file_hash sha s3 f bucket key with
  | none => ⟨false, none, none, "Failed to calculate file hash"⟩
  | some h =>
    match get_resume_cache f st h with
    | some cached =>
      ⟨true, some h, some cached,
        "Resume already processed - using existing data from " ++ cached.original_filename⟩
    | none => ⟨false, some h, none, "File is unique - proceeding with processing"⟩

/-- Python `DeduplicationService.store_processed_file` (deduplication_service.py
lines 87-115): a thin wrapper over `put_resume_cache`. -/
def store_processed_file (f : DedupFaults) (now : Nat) (st : CacheSt)
    (h text fn : String) : Bool × CacheSt :=
  put_resume_cache f now st h text fn

/-- The analysis dict produced by `BedrockClient`, at the granularity the
handlers read back (score plus the lists whose lengths appear in response
summaries). -/
structure AnalysisData where
  compatibility_score : Rat
  missing_keywords : List String
  suggestions : List String
  strengths : List String
deriving DecidableEq

/-- A stored report package (`create_complete_report_package` success
payload) at the granularity the handlers read back. -/
structure ReportPackage where
  report_id : String
  timestamp : String
  markdown_s3_key : String
  markdown_url : String
  markdown_expires : String
  html_s3_key : String
  html_url : String
  html_expires : String
  metadata : String
deriving DecidableEq

/-- Outcome of `create_complete_report_package`: a success dict, a
`success=False` dict, or a raised exception. -/
inductive ReportOut where
  | ok (pkg : ReportPackage)
  | fail (error : String)
  | raised (exc : String)
deriving DecidableEq

/-- Outcome of `analyze_resume_vs_job_description` (the Bedrock client
catches its own exceptions, so it is two-valued). -/
inductive AnalyzeOut where
  | ok (analysis : AnalysisData)
  | fail (error : String)
deriving DecidableEq

/-- The external collaborators of the handlers, as deterministic functions
at the client-call boundary. -/
structure Services where
  sha : List Nat → String
  s3 : S3St
  textract : String → String → ExtractOut
  detectPii : List Char → List PiiEntity
  analyze : String → String → AnalyzeOut
  report : AnalysisData → String → String → String → ReportOut
  now : Nat

/-- The complete-pipeline event (handler.py lines 232-239). -/
structure CPEvent where
  bucket_name : String
  s3_key : String
  job_description : String
  reports_bucket : Option String
  resume_filename : Option String
  job_title : Option String

/-- Python `s3_key.split("/")[-1]`. -/
def lastPathComponent (s : String) : String :=
  ⟨(pySplit s.data ['/']).getLastD []⟩

/-- Python `event.get("resume_filename", s3_key.split("/")[-1])`. -/
def cpResumeFilename (ev : CPEvent) : String :=
  ev.resume_filename.getD (lastPathComponent ev.s3_key)

/-- Python `event.get("reports_bucket", os.environ.get("REPORTS_BUCKET", bucket_name))`. -/
def cpReportsBucket (envReports : Option String) (ev : CPEvent) : String :=
  ev.reports_bucket.getD (envReports.getD ev.bucket_name)

/-- The PII-redacted extraction output fed to analysis and the cache
(handler.py lines 272-280: `pii_result["success"]` is always true, so the
redacted text is always adopted). -/
def piiApplied (svc : Services) (text : String) : String :=
  ⟨(apply_pii_redaction_to_text svc.detectPii text.data).text⟩

/-- The success body of the complete pipeline (the response dict of
handler.py lines 321-372, at the granularity the claims observe). -/
structure CPBody where
  pipeline_status : String
  dedup_status : String
  dedup_message : String
  extracted_text_length : Nat
  job_description_length : Nat
  compatibility_score : Rat
  missing_keywords_count : Nat
  suggestions_count : Nat
  strengths_count : Nat
  report_id : String
deriving DecidableEq

/-- The pipeline response envelope. -/
inductive CPResp where
  | err (statusCode : Nat) (error : String)
  | ok (body : CPBody)
deriving DecidableEq

/-- Steps 3-5 of the complete pipeline (handler.py lines 290-372): analysis,
report generation, and the success response; a raised report exception is
converted by the outer handler (line 377-379) into the generic 500. -/
def cpAnalyzeReport (svc : Services) (envReports : Option String) (ev : CPEvent)
    (extractedText : String) (status : String) (dedup : DedupResult)
    (st : CacheSt) : CPResp × CacheSt :=
  match svc.analyze extractedText ev.job_description with
  | .fail e => (.err 422 ("AI analysis failed: " ++ e), st)
  | .ok ad =>
    match svc.report ad (cpReportsBucket envReports ev) (cpResumeFilename ev)
        (ev.job_title.getD "Position") with
    | .ok pkg =>
      (.ok ⟨"completed", status, dedup.message, extractedText.length,
        ev.job_description.length, ad.compatibility_score,
        ad.missing_keywords.length, ad.suggestions.length, ad.strengths.length,
        pkg.report_id⟩, st)
    | .fail e => (.err 500 ("Report generation failed: " ++ e), st)
    | .raised _ => (.err 500 "Failed to complete processing pipeline", st)

/-- Python `handle_complete_pipeline` (handler.py lines 221-379): dedup check, then
either the cached text (status `deduplicated`) or extract → PII-scrub →
best-effort cache store (status `processed`), then analysis and report. -/
def cpWithDedup (svc : Services) (envReports : Option String) (f : DedupFaults)
    (st : CacheSt) (ev : CPEvent) (dedup : DedupResult) : CPResp × CacheSt :=
  if dedup.is_duplicate then
    cpAnalyzeReport svc envReports ev
      ((dedup.cached_data.getD ⟨"", "", "", 0⟩).extracted_text) "deduplicated" dedup st
  else
    match svc.textract ev.bucket_name ev.s3_key with
    | ExtractOut.err e => (CPResp.err 422 ("Text extraction failed: " ++ e), st)
    | ExtractOut.ok text =>
      match dedup.file_hash with
      | some h =>
        cpAnalyzeReport svc envReports ev (piiApplied svc text) "processed" dedup
          (store_processed_file f svc.now st h (piiApplied svc text)
            (cpResumeFilename ev)).2
      | none =>
        cpAnalyzeReport svc envReports ev (piiApplied svc text) "processed" dedup st

/-- Python `handle_complete_pipeline` proper: step 1 computes the dedup check and
the rest branches on it. -/
def handle_complete_pipeline (svc : Services) (envReports : Option String)
    (f : DedupFaults) (st : CacheSt) (ev : CPEvent) : CPResp × CacheSt :=
  cpWithDedup svc envReports f st ev
    (check_file_deduplication svc.sha svc.s3 f st ev.bucket_name ev.s3_key)

/-- The analysis-only event (handler.py lines 522-528). -/
structure CAEvent where
  resume_text : String
  job_description : String
  reports_bucket : Option String
  resume_filename : Option String
  job_title : Option String

/-- Python `event.get("reports_bucket", os.environ.get("REPORTS_BUCKET",
"ats-buddy-reports"))`. -/
def caReportsBucket (envReports : Option String) (ev : CAEvent) : String :=
  ev.reports_bucket.getD (envReports.getD "ats-buddy-reports")

/-- Python `should_generate_reports` (handler.py lines 551-555): a truthy bucket
name that is neither the placeholder default nor a `local-` bucket. -/
def CaShouldGenerate (rb : String) : Prop :=
  rb ≠ "" ∧ rb ≠ "ats-buddy-reports" ∧ ¬ ("local-".data <+: rb.data)

instance (rb : String) : Decidable (CaShouldGenerate rb) :=
  inferInstanceAs (Decidable (_ ∧ _ ∧ _))

/-- The reports section of the analysis-only response: stored S3 reports, the
degraded report-failure fallback, or deliberate local mode. -/
inductive CAReports where
  | s3Stored (pkg : ReportPackage)
  | localFallback (report_id timestamp message error : String)
  | localMode (report_id timestamp message : String)
deriving DecidableEq

/-- The success body of the analysis-only path. -/
structure CABody where
  processing_type : String
  compatibility_score : Rat
  missing_keywords_count : Nat
  suggestions_count : Nat
  strengths_count : Nat
  reports : CAReports
deriving DecidableEq

/-- The analysis-only response envelope. -/
inductive CAResp where
  | err (statusCode : Nat) (error : String)
  | ok (body : CABody)
deriving DecidableEq

/-- Python `handle_complete_analysis` (handler.py lines 514-688): analysis, then —
only when reports should be generated — report building whose failure or
exception degrades to a success envelope with the "not saved to S3" note;
otherwise the local-mode success envelope. -/
def handle_complete_analysis (svc : Services) (envReports : Option String)
    (ev : CAEvent) : CAResp :=
  match svc.analyze ev.resume_text ev.job_description with
  | .fail e => .err 422 ("AI analysis failed: " ++ e)
  | .ok ad =>
    if CaShouldGenerate (caReportsBucket envReports ev) then
      match svc.report ad (caReportsBucket envReports ev)
          (ev.resume_filename.getD "resume.txt") (ev.job_title.getD "Position") with
      | .ok pkg =>
        .ok ⟨"analysis_only", ad.compatibility_score, ad.missing_keywords.length,
          ad.suggestions.length, ad.strengths.length, .s3Stored pkg⟩
      | .fail e =>
        .ok ⟨"analysis_only", ad.compatibility_score, ad.missing_keywords.length,
          ad.suggestions.length, ad.strengths.length,
          .localFallback
            ("local-" ++ ev.resume_filename.getD "resume.txt" ++ "-"
              ++ ev.job_title.getD "Position")
            "local-execution"
            "Analysis completed successfully but reports were not saved to S3" e⟩
      | .raised e =>
        .ok ⟨"analysis_only", ad.compatibility_score, ad.missing_keywords.length,
          ad.suggestions.length, ad.strengths.length,
          .localFallback
            ("local-" ++ ev.resume_filename.getD "resume.txt" ++ "-"
              ++ ev.job_title.getD "Position")
            "local-execution"
            "Analysis completed successfully but reports were not saved to S3" e⟩
    else
      .ok ⟨"analysis_only", ad.compatibility_score, ad.missing_keywords.length,
        ad.suggestions.length, ad.strengths.length,
        .localMode
          ("local-" ++ ev.resume_filename.getD "resume.txt" ++ "-"
            ++ ev.job_title.getD "Position")
          "local-execution"
          "Analysis completed successfully (local mode - no S3 storage)"⟩

/-- A concrete no-failure collaborator environment for witnesses. -/
def demoSvc : Services where
  sha := fun l => String.mk (List.replicate l.length 'h')
  s3 := fun b k => if b = "bkt" ∧ k = "in/resume.pdf" then some [1, 2, 3] else none
  textract := fun b k =>
    if b = "bkt" ∧ k = "in/resume.pdf" then .ok "resume text content here"
    else .err "File not found in S3."
  detectPii := fun _ => []
  analyze := fun _ _ => .ok ⟨75, ["aws"], ["s1", "s2", "s3"], ["python"]⟩
  report := fun _ _ _ _ => .ok ⟨"rid1", "ts1", "mk", "mu", "mx", "hk", "hu", "hx", "meta"⟩
  now := 1000

/-- The same environment with report persistence failing. -/
def demoSvcReportFail : Services where
  sha := fun l => String.mk (List.replicate l.length 'h')
  s3 := fun b k => if b = "bkt" ∧ k = "in/resume.pdf" then some [1, 2, 3] else none
  textract := fun b k =>
    if b = "bkt" ∧ k = "in/resume.pdf" then .ok "resume text content here"
    else .err "File not found in S3."
  detectPii := fun _ => []
  analyze := fun _ _ => .ok ⟨75, ["aws"], ["s1", "s2", "s3"], ["python"]⟩
  report := fun _ _ _ _ => .fail "S3 upload failed"
  now := 1000

/-- The complete-pipeline demo event. -/
def demoCPEvent : CPEvent := ⟨"bkt", "in/resume.pdf", "Great job description", none, none, none⟩

/-- The analysis-only demo event. -/
def demoCAEvent : CAEvent :=
  ⟨"resume text body", "Great job description", some "real-reports-bucket", none, none⟩

/-! ## TextExtractor polling — `_extract_text_async`
(textract_client.py lines 191-308)

The Textract job API is abstracted as a status oracle indexed by the elapsed
time at which `get_document_text_detection` is called, plus the text that
`_parse_async_textract_response` would recover on success.  The `while`
loop increments `elapsed_time` by the 5-second poll interval until the
300-second ceiling, so it runs at most `300 / 5` iterations; the embedding
makes that trip count the structural fuel.
-/

/-- The `JobStatus` values of the Textract status response. -/
inductive JobStatus where
  | succeeded
  | failed (statusMessage : String)
  | inProgress
  | partialSuccess
  | other (s : String)
deriving DecidableEq

/-- Python `max_wait_time = 300` (textract_client.py line 225). -/
def maxWaitTime : Nat := 300

/-- Python `poll_interval = 5` (textract_client.py line 226). -/
def pollInterval : Nat := 5

/-- The polling loop (textract_client.py lines 229-271): sleep, advance the
clock by the poll interval, read the job status, and dispatch; returns the
outcome together with the final elapsed time. -/
def pollLoopAux (getStatus : Nat → JobStatus) (parsedText : String) :
    Nat → Nat → ExtractOut × Nat
  | 0, elapsed =>
    (.err "Textract job timed out after 300 seconds. Large PDFs may take longer to process.",
      elapsed)
  | fuel + 1, elapsed =>
    match getStatus (elapsed + pollInterval) with
    | .succeeded =>
      if pyStripChars parsedText.data = [] then
        (.err "No text could be extracted from the PDF. The file may be corrupted or password-protected.",
          elapsed + pollInterval)
      else (.ok parsedText, elapsed + pollInterval)
    | .failed m => (.err ("Textract job failed: " ++ m), elapsed + pollInterval)
    | .inProgress => pollLoopAux getStatus parsedText fuel (elapsed + pollInterval)
    | .partialSuccess => pollLoopAux getStatus parsedText fuel (elapsed + pollInterval)
    | .other s => (.err ("Unexpected job status: " ++ s), elapsed + pollInterval)

/-- The polling phase of `_extract_text_async`: fixed 5-second interval,
fixed 300-second ceiling. -/
def extract_text_async (getStatus : Nat → JobStatus) (parsedText : String) :
    ExtractOut × Nat :=
  pollLoopAux getStatus parsedText (maxWaitTime / pollInterval) 0

/-! ## RequestRouter — `validate_input` (handler.py lines 147-188)

The event dict is modelled as a record of the five keys the classifier
inspects; `none` means the key is absent.  Only the length of the `Records`
list matters to the classifier (its members are opaque notification
records), so it is a `List Unit`.
-/

/-- Python `str.strip()` packaged on `String`. -/
def pyStripStr (s : String) : String := ⟨pyStripChars s.data⟩

/-- The event dict as seen by `validate_input`. -/
structure InEvent where
  bucket_name : Option String
  s3_key : Option String
  job_description : Option String
  records : Option (List Unit)
  resume_text : Option String
deriving DecidableEq

/-- Result dict of `validate_input`. -/
inductive VResult where
  | invalid (error : String)
  | valid (event_type : String)
deriving DecidableEq

/-- Python `validate_input` (handler.py lines 147-188): ordered shape
classification with emptiness checks on the required text fields. -/
def validate_input (ev : InEvent) : VResult :=
  if ev.bucket_name.isSome ∧ ev.s3_key.isSome ∧ ev.job_description.isSome then
    if pyStripStr (ev.job_description.getD "") = "" then
      .invalid "Job description cannot be empty"
    else .valid "complete_pipeline"
  else if ev.records.isSome ∧ ev.records.getD [] ≠ [] then
    .valid "s3_upload"
  else if ev.bucket_name.isSome ∧ ev.s3_key.isSome then
    .valid "direct_extraction"
  else if ev.resume_text.isSome ∧ ev.job_description.isSome then
    if pyStripStr (ev.resume_text.getD "") = "" then
      .invalid "Resume text cannot be empty"
    else if pyStripStr (ev.job_description.getD "") = "" then
      .invalid "Job description cannot be empty"
    else .valid "analysis_only"
  else
    .invalid "Invalid event format. Expected: complete pipeline (bucket_name + s3_key + job_description), S3 upload event, direct extraction (bucket_name + s3_key), or analysis only (resume_text + job_description)"

theorem occursIn_iff_findSub {α : Type} [DecidableEq α] (sep xs : List α) :
    (∃ i, sep <+: xs.drop i) ↔ (findSub sep xs).isSome := by
  induction xs with
  | nil =>
    constructor
    · rintro ⟨i, hi⟩
      simp only [List.drop_nil] at hi
      simp [findSub, hi]
    · intro h
      by_cases hp : sep <+: ([] : List α)
      · exact ⟨0, hp⟩
      · simp [findSub, hp] at h
  | cons x t ih =>
    constructor
    · rintro ⟨i, hi⟩
      by_cases hp : sep <+: (x :: t)
      · simp [findSub, hp]
      · cases i with
        | zero => exact absurd hi hp
        | succ j =>
          simp only [List.drop_succ_cons] at hi
          have hs : (findSub sep t).isSome := ih.mp ⟨j, hi⟩
          simp only [findSub, hp, if_false, Option.isSome_map']
          exact hs
    · intro h
      by_cases hp : sep <+: (x :: t)
      · exact ⟨0, hp⟩
      · simp only [findSub, hp, if_false, Option.isSome_map'] at h
        obtain ⟨j, hj⟩ := ih.mpr h
        exact ⟨j + 1, by simpa using hj⟩

theorem occursIn_of_exists {α : Type} [DecidableEq α] {sep xs : List α}
    (h : ∃ i, sep <+: xs.drop i) : OccursIn sep xs :=
  (occursIn_iff_findSub sep xs).mp h

theorem findSub_some_le {α : Type} [DecidableEq α] {sep xs : List α} {i : Nat}
    (h : findSub sep xs = some i) : i + sep.length ≤ xs.length := by
  induction xs generalizing i with
  | nil =>
    by_cases hp : sep <+: ([] : List α)
    · simp only [findSub, hp, if_true, Option.some.injEq] at h
      subst h
      simpa using hp.length_le
    · simp [findSub, hp] at h
  | cons x t ih =>
    by_cases hp : sep <+: (x :: t)
    · simp only [findSub, hp, if_true, Option.some.injEq] at h
      subst h
      simpa using hp.length_le
    · simp only [findSub, hp, if_false, Option.map_eq_some'] at h
      obtain ⟨j, hj, rfl⟩ := h
      have := ih hj
      simp only [List.length_cons]
      omega

theorem findSub_isPre {α : Type} [DecidableEq α] {sep xs : List α} {i : Nat}
    (h : findSub sep xs = some i) : sep <+: xs.drop i := by
  induction xs generalizing i with
  | nil =>
    by_cases hp : sep <+: ([] : List α)
    · simp only [findSub, hp, if_true, Option.some.injEq] at h
      subst h; simpa using hp
    · simp [findSub, hp] at h
  | cons x t ih =>
    by_cases hp : sep <+: (x :: t)
    · simp only [findSub, hp, if_true, Option.some.injEq] at h
      subst h; simpa using hp
    · simp only [findSub, hp, if_false, Option.map_eq_some'] at h
      obtain ⟨j, hj, rfl⟩ := h
      simpa using ih hj

/-- At the head of its own occurrence, `findSub` reports index zero. -/
theorem findSub_self_append {α : Type} [DecidableEq α] (sep rest : List α) :
    findSub sep (sep ++ rest) = some 0 := by
  cases hs : sep ++ rest with
  | nil =>
    obtain ⟨h1, h2⟩ := List.append_eq_nil.mp hs
    subst h1; subst h2
    simp [findSub]
  | cons y t =>
    have hpre : sep <+: y :: t := hs ▸ List.prefix_append sep rest
    simp [findSub, hpre]

/-- Characterisation used to locate a separator planted after a clean prefix:
if no occurrence of `sep` starts inside `a`, the first occurrence in
`a ++ sep ++ rest` is exactly at `a.length`. -/
theorem findSub_append (a sep rest : List α) [DecidableEq α]
    (h : ∀ i < a.length, ¬ sep <+: (a ++ sep ++ rest).drop i) :
    findSub sep (a ++ sep ++ rest) = some a.length := by
  induction a with
  | nil =>
    simp only [List.nil_append, List.length_nil]
    exact findSub_self_append sep rest
  | cons x a' ih =>
    have hx : (x :: a') ++ sep ++ rest = x :: (a' ++ sep ++ rest) := by simp
    have h0 : ¬ sep <+: x :: (a' ++ sep ++ rest) := by
      have h00 := h 0 (by simp)
      rw [hx] at h00
      simpa using h00
    have hrec : findSub sep (a' ++ sep ++ rest) = some a'.length := by
      apply ih
      intro i hi
      have hh := h (i + 1) (by simp; omega)
      rw [hx] at hh
      simpa using hh
    rw [hx]
    simp only [findSub, h0, if_false, hrec, Option.map_some', List.length_cons]

theorem prefix_append_left_iff {α : Type} {sep u v : List α} (h : sep.length ≤ u.length) :
    sep <+: u ++ v ↔ sep <+: u := by
  rw [List.prefix_iff_eq_take, List.prefix_iff_eq_take,
    List.take_append_of_le_length h]

theorem cleanBefore_extend {α : Type} [DecidableEq α] {sep a : List α}
    (h : CleanBefore sep a) (rest : List α) :
    ∀ i < a.length, ¬ sep <+: (a ++ sep ++ rest).drop i := by
  intro i hi hpre
  rw [List.append_assoc, List.drop_append_of_le_length (Nat.le_of_lt hi),
    ← List.append_assoc] at hpre
  have hlen : sep.length ≤ (a.drop i ++ sep).length := by
    simp [List.length_drop]
  rw [prefix_append_left_iff hlen] at hpre
  have := h i hi
  rw [List.drop_append_of_le_length (Nat.le_of_lt hi)] at this
  exact this hpre

/-- Occurrence-freeness plus a terminating element outside `sep` gives
cleanliness: used for multipart segments, which always end in a linefeed
byte while the boundary marker contains none. -/
theorem cleanBefore_of_getLast {α : Type} [DecidableEq α] {sep a : List α} {z : α}
    (hlast : a.getLast? = some z) (hz : z ∉ sep) (hocc : ¬ OccursIn sep a) :
    CleanBefore sep a := by
  intro i hi hpre
  rw [List.drop_append_of_le_length (Nat.le_of_lt hi)] at hpre
  by_cases hsl : sep.length ≤ (a.drop i).length
  · rw [prefix_append_left_iff hsl] at hpre
    exact hocc (occursIn_of_exists ⟨i, hpre⟩)
  · push_neg at hsl
    rw [List.prefix_iff_eq_take] at hpre
    have hs1 : a.drop i = (a.drop i ++ sep).take (a.drop i).length := by
      rw [List.take_append_of_le_length (le_refl _), List.take_length]
    have hs2 : (sep.take (a.drop i).length : List α)
        = (a.drop i ++ sep).take (a.drop i).length := by
      conv_lhs => rw [hpre]
      rw [List.take_take, min_eq_left (Nat.le_of_lt hsl)]
    have hdp : a.drop i <+: sep := by
      rw [hs1, ← hs2]
      exact List.take_prefix _ _
    have hne : a.drop i ≠ [] := by
      intro hnil
      rw [List.drop_eq_nil_iff] at hnil
      omega
    have hgl : (a.drop i).getLast? = some z := by
      rw [List.getLast?_drop]
      simp only [if_neg (by omega : ¬ a.length ≤ i)]
      exact hlast
    have hzmem : z ∈ a.drop i := by
      have hmem : z ∈ (a.drop i).getLast? := by rw [Option.mem_def]; exact hgl
      obtain ⟨hne2, hzz⟩ := List.mem_getLast?_eq_getLast hmem
      exact hzz ▸ List.getLast_mem hne2
    exact hz (hdp.mem hzmem)

theorem splitAux_fuel {α : Type} [DecidableEq α] {sep : List α} (hsep : sep ≠ [])
    (fuel : Nat) : ∀ xs : List α, xs.length ≤ fuel → splitAux sep fuel xs = pySplit xs sep := by
  induction fuel using Nat.strong_induction_on with
  | _ fuel ih =>
    intro xs hx
    unfold pySplit
    match fuel with
    | 0 =>
      have hnil : xs = [] := List.length_eq_zero.mp (Nat.le_zero.mp hx)
      subst hnil
      rfl
    | n + 1 =>
      cases hxl : xs.length with
      | zero =>
        have hnil : xs = [] := List.length_eq_zero.mp hxl
        subst hnil
        cases hf : findSub sep ([] : List α) with
        | none => simp [splitAux, hf]
        | some i =>
          have hb := findSub_some_le hf
          simp only [List.length_nil] at hb
          exact absurd (List.length_eq_zero.mp (by omega)) hsep
      | succ m =>
        cases hf : findSub sep xs with
        | none => simp [splitAux, hf]
        | some i =>
          have hle := findSub_some_le hf
          have hsl : 0 < sep.length := List.length_pos.mpr hsep
          have hdl : (xs.drop (i + sep.length)).length ≤ n := by
            rw [List.length_drop]
            omega
          have hdm : (xs.drop (i + sep.length)).length ≤ m := by
            rw [List.length_drop]
            omega
          simp only [splitAux, hf]
          rw [ih n (by omega) _ hdl, ih m (by omega) _ hdm]

/-- With no occurrence of the separator the split returns the singleton. -/
theorem pySplit_of_findSub_none {α : Type} [DecidableEq α] {xs sep : List α}
    (h : findSub sep xs = none) : pySplit xs sep = [xs] := by
  unfold pySplit
  cases hxl : xs.length with
  | zero => rfl
  | succ m => simp [splitAux, h]

/-- Peeling one separator off a well-placed occurrence: the Python-split of
`a ++ sep ++ rest` starts with `a` and continues with the split of `rest`. -/
theorem pySplit_append {α : Type} [DecidableEq α] {a sep rest : List α} (hsep : sep ≠ [])
    (h : findSub sep (a ++ sep ++ rest) = some a.length) :
    pySplit (a ++ sep ++ rest) sep = a :: pySplit rest sep := by
  unfold pySplit
  have hlen : (a ++ sep ++ rest).length = a.length + sep.length + rest.length := by
    simp only [List.length_append]
  have hpos : 0 < sep.length := List.length_pos.mpr hsep
  cases hxl : (a ++ sep ++ rest).length with
  | zero => omega
  | succ m =>
    simp only [splitAux, h]
    have htake : (a ++ sep ++ rest).take a.length = a := by
      rw [List.append_assoc, List.take_append_of_le_length (le_refl _), List.take_length]
    have hds : a.length + sep.length = (a ++ sep).length := by
      simp only [List.length_append]
    have hdrop : (a ++ sep ++ rest).drop (a.length + sep.length) = rest := by
      rw [hds, List.drop_append_of_le_length (le_refl _), List.drop_length, List.nil_append]
    rw [htake, hdrop, splitAux_fuel hsep m rest (by omega)]
    rfl

theorem rdropWhile_cons_of_neg {α : Type} (p : α → Bool) (c : α) (l : List α)
    (h : p c = false) :
    List.rdropWhile p (c :: l) = c :: List.rdropWhile p l := by
  rw [List.rdropWhile, List.reverse_cons, List.dropWhile_append]
  by_cases he : (List.dropWhile p l.reverse).isEmpty
  · rw [if_pos he]
    rw [List.isEmpty_iff] at he
    rw [List.rdropWhile, he]
    simp [List.dropWhile, h]
  · rw [if_neg he, List.reverse_append, List.rdropWhile]
    simp

theorem rdropWhile_append_all {α : Type} (p : α → Bool) (l sfx : List α)
    (h : ∀ x ∈ sfx, p x = true) :
    List.rdropWhile p (l ++ sfx) = List.rdropWhile p l := by
  rw [List.rdropWhile, List.reverse_append, List.dropWhile_append]
  have hnil : List.dropWhile p sfx.reverse = [] := by
    rw [List.dropWhile_eq_nil_iff]
    intro x hx
    exact h x (List.mem_reverse.mp hx)
  rw [hnil]
  simp [List.rdropWhile]

theorem rdropWhile_eq_self_of_getLast {α : Type} (p : α → Bool) (l : List α)
    (h : ∀ b, l.getLast? = some b → p b = false) :
    List.rdropWhile p l = l := by
  rw [List.rdropWhile_eq_self_iff]
  intro hl
  have hgl : l.getLast? = some (l.getLast hl) := List.getLast?_eq_getLast_of_ne_nil hl
  simp [h _ hgl]

/-- Combined form used for the multipart parts: strip `b"\r\n--"` from the
right of `content ++ b"\r\n"`, recovering `content` whenever its final byte is
not CR, LF or a dash. -/
theorem pyRstripCrLfDash_append_crlf (content : List Nat)
    (h : ∀ b, content.getLast? = some b → isCrLfDash b = false) :
    pyRstripCrLfDash (content ++ [13, 10]) = content := by
  unfold pyRstripCrLfDash
  rw [rdropWhile_append_all _ _ _ (by decide)]
  exact rdropWhile_eq_self_of_getLast _ _ h

/-- Stripping a segment made of an all-whitespace prefix, a non-whitespace
head and a tail: the strip keeps that head in front. -/
theorem pyStripWith_ws_head {α : Type} (p : α → Bool) (w : List α) (c : α) (rest : List α)
    (hw : ∀ x ∈ w, p x = true) (hc : p c = false) :
    pyStripWith p (w ++ c :: rest) = c :: List.rdropWhile p rest := by
  unfold pyStripWith
  have hdw : List.dropWhile p (w ++ c :: rest) = c :: rest := by
    rw [List.dropWhile_append]
    have hnil : List.dropWhile p w = [] := List.dropWhile_eq_nil_iff.mpr hw
    rw [hnil]
    simp [List.dropWhile, hc]
  rw [hdw, rdropWhile_cons_of_neg _ _ _ hc]

theorem utf8DecodeOne_encode (c : Char) (rest : List Nat) :
    utf8DecodeOne (utf8EncodeCharNat c ++ rest) = some (c, rest) := by
  have hval : c.toNat < 0xd800 ∨ (0xdfff < c.toNat ∧ c.toNat < 0x110000) := c.valid
  set v := c.toNat with hv
  by_cases h1 : v < 0x80
  · simp only [utf8EncodeCharNat, ← hv, if_pos h1, List.cons_append, List.nil_append]
    simp only [utf8DecodeOne, if_pos h1]
    rw [hv, Char.ofNat_toNat]
  · by_cases h2 : v < 0x800
    · simp only [utf8EncodeCharNat, ← hv, if_neg h1, if_pos h2, List.cons_append,
        List.nil_append]
      simp only [utf8DecodeOne]
      rw [if_neg (by omega), if_neg (by omega), if_pos (by omega)]
      rw [if_pos (by constructor <;> omega)]
      have hrec : (0xC0 + v / 64 - 0xC0) * 64 + (0x80 + v % 64 - 0x80) = v := by omega
      rw [hrec, hv, Char.ofNat_toNat]
    · by_cases h3 : v < 0x10000
      · simp only [utf8EncodeCharNat, ← hv, if_neg h1, if_neg h2, if_pos h3,
          List.cons_append, List.nil_append]
        simp only [utf8DecodeOne]
        rw [if_neg (by omega), if_neg (by omega), if_neg (by omega), if_pos (by omega)]
        rw [if_pos (by refine ⟨⟨by omega, by omega⟩, ⟨by omega, by omega⟩, by omega, ?_⟩; omega)]
        have hrec : (0xE0 + v / 4096 - 0xE0) * 4096 + (0x80 + v / 64 % 64 - 0x80) * 64 +
            (0x80 + v % 64 - 0x80) = v := by omega
        rw [hrec, hv, Char.ofNat_toNat]
      · have h4 : v < 0x110000 := by omega
        simp only [utf8EncodeCharNat, ← hv, if_neg h1, if_neg h2, if_neg h3,
          List.cons_append, List.nil_append]
        simp only [utf8DecodeOne]
        rw [if_neg (by omega), if_neg (by omega), if_neg (by omega), if_neg (by omega),
          if_pos (by omega)]
        rw [if_pos (by refine ⟨⟨by omega, by omega⟩, ⟨by omega, by omega⟩,
          ⟨by omega, by omega⟩, by omega, by omega⟩)]
        have hrec : (0xF0 + v / 262144 - 0xF0) * 262144 + (0x80 + v / 4096 % 64 - 0x80) * 4096 +
            (0x80 + v / 64 % 64 - 0x80) * 64 + (0x80 + v % 64 - 0x80) = v := by omega
        rw [hrec, hv, Char.ofNat_toNat]

theorem utf8EncodeCharNat_length_pos (c : Char) : 1 ≤ (utf8EncodeCharNat c).length := by
  unfold utf8EncodeCharNat
  split_ifs <;> simp

theorem utf8DecodeAux_encode (l : List Char) :
    ∀ fuel : Nat, (l.flatMap utf8EncodeCharNat).length ≤ fuel →
      utf8DecodeAux fuel (l.flatMap utf8EncodeCharNat) = l := by
  induction l with
  | nil =>
    intro fuel _
    cases fuel <;> simp [utf8DecodeAux, utf8DecodeOne]
  | cons c t ih =>
    intro fuel hf
    rw [List.flatMap_cons] at hf ⊢
    have h1 := utf8EncodeCharNat_length_pos c
    cases fuel with
    | zero =>
      exfalso
      rw [List.length_append] at hf
      omega
    | succ n =>
      simp only [utf8DecodeAux, utf8DecodeOne_encode c (t.flatMap utf8EncodeCharNat)]
      rw [ih n (by rw [List.length_append] at hf; omega)]

/-- Decoding inverts encoding: the Python round trip
`s.encode("utf-8").decode("utf-8", errors="ignore") == s`. -/
theorem pyDecodeIgnore_strBytes (s : String) : pyDecodeIgnore (strBytes s) = s := by
  unfold pyDecodeIgnore strBytes
  rw [utf8DecodeAux_encode s.data _ (le_refl _)]

/-! ### Multipart round-trip lemmas -/

theorem pyStripWith_eq_self {α : Type} (p : α → Bool) (l : List α)
    (hhead : ∀ c, l.head? = some c → p c = false)
    (hlast : ∀ c, l.getLast? = some c → p c = false) :
    pyStripWith p l = l := by
  cases l with
  | nil => rfl
  | cons c t =>
    have hc : p c = false := hhead c rfl
    unfold pyStripWith
    rw [List.dropWhile_cons, if_neg (by simp [hc])]
    exact rdropWhile_eq_self_of_getLast _ _ hlast

theorem mpProcessPart_nil (st : MPState) : mpProcessPart st [] = st := by
  unfold mpProcessPart
  rw [if_pos (Or.inl (by decide))]

theorem mpProcessPart_dashes (st : MPState) : mpProcessPart st [45, 45] = st := by
  unfold mpProcessPart
  rw [if_pos (Or.inr (by decide))]

/-- Processing one well-shaped part: the blank line after the single header
row is found first, so the loop body receives the header block and the
CRLF-terminated content. -/
theorem mpProcessPart_seg (st : MPState) (hdr : String) (content : List Nat)
    (c : Nat) (t : List Nat)
    (hct : strBytes hdr = c :: t) (hws : isWsByte c = false) (hc45 : c ≠ 45)
    (hclean : CleanBefore [13, 10, 13, 10] ([13, 10] ++ strBytes hdr)) :
    mpProcessPart st (mpSegOf hdr content)
      = mpHandlePart st ([13, 10] ++ strBytes hdr) (content ++ [13, 10]) := by
  have hshape : mpSegOf hdr content
      = ([13, 10] ++ strBytes hdr) ++ [13, 10, 13, 10] ++ (content ++ [13, 10]) := by
    simp [mpSegOf, crlfB]
  have hfind : findSub [13, 10, 13, 10] (mpSegOf hdr content)
      = some ([13, 10] ++ strBytes hdr).length := by
    rw [hshape]
    exact findSub_append _ _ _ (cleanBefore_extend hclean _)
  have hskip : ¬ (pyStrip (mpSegOf hdr content) = []
      ∨ pyStrip (mpSegOf hdr content) = [45, 45]) := by
    have hshape2 : mpSegOf hdr content
        = [13, 10] ++ c :: (t ++ [13, 10, 13, 10] ++ (content ++ [13, 10])) := by
      rw [hshape, hct]
      simp
    rw [hshape2]
    unfold pyStrip
    rw [pyStripWith_ws_head _ _ _ _ (by decide) hws]
    rintro (h | h)
    · exact absurd h (by simp)
    · have : c = 45 := by
        have := congrArg List.head? h
        simpa using this
      exact hc45 this
  have htake : (mpSegOf hdr content).take ([13, 10] ++ strBytes hdr).length
      = [13, 10] ++ strBytes hdr := by
    rw [hshape, List.append_assoc, List.take_append_of_le_length (le_refl _),
      List.take_length]
  have hds : ([13, 10] ++ strBytes hdr).length + 4
      = (([13, 10] ++ strBytes hdr) ++ [13, 10, 13, 10]).length := by
    simp
  have hdrop : (mpSegOf hdr content).drop (([13, 10] ++ strBytes hdr).length + 4)
      = content ++ [13, 10] := by
    rw [hshape]
    rw [show ([13, 10] ++ strBytes hdr) ++ [13, 10, 13, 10] ++ (content ++ [13, 10])
        = (([13, 10] ++ strBytes hdr) ++ [13, 10, 13, 10]) ++ (content ++ [13, 10]) from rfl]
    rw [hds, List.drop_append_of_le_length (le_refl _), List.drop_length,
      List.nil_append]
  unfold mpProcessPart
  rw [if_neg hskip, hfind]
  show mpHandlePart st ((mpSegOf hdr content).take ([13, 10] ++ strBytes hdr).length)
      ((mpSegOf hdr content).drop (([13, 10] ++ strBytes hdr).length + 4))
    = mpHandlePart st ([13, 10] ++ strBytes hdr) (content ++ [13, 10])
  rw [htake, hdrop]

/-- The loop body on the file part stores the stripped content as the PDF
bytes and picks up the filename from the header. -/
theorem mpHandlePart_file (st : MPState) (fb : List Nat)
    (hlast : ∀ b, fb.getLast? = some b → isCrLfDash b = false) :
    mpHandlePart st ([13, 10] ++ strBytes mpHdrFile) (fb ++ [13, 10])
      = ⟨some fb, st.jobDescription, "test.pdf"⟩ := by
  unfold mpHandlePart
  rw [if_pos (Or.inl (by decide))]
  rw [pyRstripCrLfDash_append_crlf fb hlast]
  have hfn : extractFilename (pyDecodeIgnore ([13, 10] ++ strBytes mpHdrFile)).data
      = some "test.pdf".data := by decide
  rw [hfn]

/-- The loop body on the job-description part: the content is right-stripped,
decoded and stripped, recovering the original string under the boundary-safe
hypotheses. -/
theorem mpHandlePart_job (st : MPState) (jd : String)
    (hlastB : ∀ b, (strBytes jd).getLast? = some b → isCrLfDash b = false)
    (hhead : ∀ c, jd.data.head? = some c → isWsChar c = false)
    (hlastC : ∀ c, jd.data.getLast? = some c → isWsChar c = false) :
    mpHandlePart st ([13, 10] ++ strBytes mpHdrJob) (strBytes jd ++ [13, 10])
      = ⟨st.pdfContent, some jd, st.originalFilename⟩ := by
  unfold mpHandlePart
  rw [if_neg (by decide), if_pos (Or.inr (by decide))]
  rw [pyRstripCrLfDash_append_crlf _ hlastB, pyDecodeIgnore_strBytes]
  have hstrip : pyStripChars jd.data = jd.data :=
    pyStripWith_eq_self _ _ hhead hlastC
  rw [hstrip]

/-- The loop body on the job-description header never touches the stored PDF
content or filename, whatever the content bytes are. -/
theorem mpHandlePart_job_preserves (st : MPState) (content : List Nat) :
    (mpHandlePart st ([13, 10] ++ strBytes mpHdrJob) content).pdfContent = st.pdfContent ∧
    (mpHandlePart st ([13, 10] ++ strBytes mpHdrJob) content).originalFilename
      = st.originalFilename := by
  unfold mpHandlePart
  rw [if_neg (by decide)]
  by_cases h : StrContains (pyDecodeIgnore ([13, 10] ++ strBytes mpHdrJob))
      "name=\"jobDescription\"" ∨
      StrContains (pyDecodeIgnore ([13, 10] ++ strBytes mpHdrJob)) "name=\"job_description\""
  · rw [if_pos h]
    exact ⟨rfl, rfl⟩
  · rw [if_neg h]
    exact ⟨rfl, rfl⟩

/-- Splitting the synthetic two-part body on the boundary marker yields the
empty lead-in, the two part segments, and the closing dashes. -/
theorem mkMultipartBody_split (fb : List Nat) (jd : String)
    (h1 : ¬ OccursIn mpSep (mpSeg1 fb)) (h2 : ¬ OccursIn mpSep (mpSeg2 jd)) :
    pySplit (mkMultipartBody fb jd) mpSep = [[], mpSeg1 fb, mpSeg2 jd, [45, 45]] := by
  have hsepne : mpSep ≠ [] := by decide
  have h10 : (10 : Nat) ∉ mpSep := by decide
  have hlast1 : (mpSeg1 fb).getLast? = some 10 := by
    unfold mpSeg1 mpSegOf
    rw [List.getLast?_append]
    rfl
  have hlast2 : (mpSeg2 jd).getLast? = some 10 := by
    unfold mpSeg2 mpSegOf
    rw [List.getLast?_append]
    rfl
  have hc1 : CleanBefore mpSep (mpSeg1 fb) := cleanBefore_of_getLast hlast1 h10 h1
  have hc2 : CleanBefore mpSep (mpSeg2 jd) := cleanBefore_of_getLast hlast2 h10 h2
  have hshape : mkMultipartBody fb jd
      = ([] : List Nat) ++ mpSep ++
        (mpSeg1 fb ++ mpSep ++ (mpSeg2 jd ++ mpSep ++ [45, 45])) := by
    simp [mkMultipartBody]
  rw [hshape]
  rw [pySplit_append hsepne (by
    have := findSub_self_append mpSep
      (mpSeg1 fb ++ mpSep ++ (mpSeg2 jd ++ mpSep ++ [45, 45]))
    simpa using this)]
  rw [pySplit_append hsepne (findSub_append _ _ _ (cleanBefore_extend hc1 _))]
  rw [pySplit_append hsepne (findSub_append _ _ _ (cleanBefore_extend hc2 _))]
  rw [pySplit_of_findSub_none (by decide)]

/-- Splitting the file-less body on the boundary marker. -/
theorem mkBodyNoFile_split (jd : String) (h2 : ¬ OccursIn mpSep (mpSeg2 jd)) :
    pySplit (mkBodyNoFile jd) mpSep = [[], mpSeg2 jd, [45, 45]] := by
  have hsepne : mpSep ≠ [] := by decide
  have h10 : (10 : Nat) ∉ mpSep := by decide
  have hlast2 : (mpSeg2 jd).getLast? = some 10 := by
    unfold mpSeg2 mpSegOf
    rw [List.getLast?_append]
    rfl
  have hc2 : CleanBefore mpSep (mpSeg2 jd) := cleanBefore_of_getLast hlast2 h10 h2
  have hshape : mkBodyNoFile jd
      = ([] : List Nat) ++ mpSep ++ (mpSeg2 jd ++ mpSep ++ [45, 45]) := by
    simp [mkBodyNoFile]
  rw [hshape]
  rw [pySplit_append hsepne (by
    have := findSub_self_append mpSep (mpSeg2 jd ++ mpSep ++ [45, 45])
    simpa using this)]
  rw [pySplit_append hsepne (findSub_append _ _ _ (cleanBefore_extend hc2 _))]
  rw [pySplit_of_findSub_none (by decide)]

theorem mpFinalize_ok (pdf : List Nat) (jd : String) (fn : String)
    (hpdf : pdf ≠ []) (hjdne : jd ≠ "")
    (hlen : ¬ (pyStripChars jd.data).length < 50) :
    mpFinalize ⟨some pdf, some jd, fn⟩ = .ok pdf jd fn := by
  simp only [mpFinalize]
  rw [if_neg hpdf, if_neg hjdne, if_neg hlen]

theorem mpFinalize_short (pdf : List Nat) (jd : String) (fn : String)
    (hpdf : pdf ≠ []) (hjdne : jd ≠ "")
    (hlen : (pyStripChars jd.data).length < 50) :
    mpFinalize ⟨some pdf, some jd, fn⟩
      = .err "Job description must be at least 50 characters" := by
  simp only [mpFinalize]
  rw [if_neg hpdf, if_neg hjdne, if_pos hlen]

theorem mpFinalize_noPdf (st : MPState) (hp : st.pdfContent = none) :
    mpFinalize st = .err "PDF file is required" := by
  unfold mpFinalize
  rw [hp]

/-- Amended multipart round trip (claim C1, corrected): the synthetic
two-part body parses back to the file bytes and the job-description string,
provided the file bytes are non-empty and do not end in CR, LF or a dash, the
job description has no leading/trailing whitespace and does not end in a
byte from `b"\r\n--"`, it is at least 50 characters long, and — the
well-formedness of the body — the boundary marker occurs in neither part. -/
theorem multipart_roundTrip (fb : List Nat) (jd : String)
    (hfb : fb ≠ [])
    (hfbLast : ∀ b, fb.getLast? = some b → isCrLfDash b = false)
    (hjdLast : ∀ b, (strBytes jd).getLast? = some b → isCrLfDash b = false)
    (hjdHead : ∀ c, jd.data.head? = some c → isWsChar c = false)
    (hjdLastC : ∀ c, jd.data.getLast? = some c → isWsChar c = false)
    (hjdLen : 50 ≤ jd.length)
    (h1 : ¬ OccursIn mpSep (mpSeg1 fb)) (h2 : ¬ OccursIn mpSep (mpSeg2 jd)) :
    parse_multipart_form_data mpContentType (mkMultipartBody fb jd)
      = .ok fb jd "test.pdf" := by
  unfold parse_multipart_form_data
  rw [if_neg (by decide), show extractBoundary mpContentType
    = some "XBOUNDARY1234".data from by decide]
  show parseWithBoundary "XBOUNDARY1234".data (mkMultipartBody fb jd) = _
  unfold parseWithBoundary
  rw [show strBytes ⟨'-' :: '-' :: "XBOUNDARY1234".data⟩ = mpSep from by decide]
  rw [mkMultipartBody_split fb jd h1 h2]
  simp only [List.foldl_cons, List.foldl_nil, mpSeg1, mpSeg2]
  rw [mpProcessPart_nil]
  rw [mpProcessPart_seg _ mpHdrFile fb 67 (strBytes mpHdrFile).tail (by decide)
    (by decide) (by decide) (by decide)]
  rw [mpHandlePart_file _ fb hfbLast]
  rw [mpProcessPart_seg _ mpHdrJob (strBytes jd) 67 (strBytes mpHdrJob).tail (by decide)
    (by decide) (by decide) (by decide)]
  rw [mpHandlePart_job _ jd hjdLast hjdHead hjdLastC]
  rw [mpProcessPart_dashes]
  show mpFinalize ⟨some fb, some jd, "test.pdf"⟩ = _
  have hjdne : jd ≠ "" := by
    intro h
    rw [h] at hjdLen
    simp [String.length] at hjdLen
  have hstrip : pyStripChars jd.data = jd.data :=
    pyStripWith_eq_self _ _ hjdHead hjdLastC
  exact mpFinalize_ok fb jd "test.pdf" hfb hjdne (by
    rw [hstrip]
    have : jd.data.length = jd.length := rfl
    omega)

/-- Claim C1, counterexample: for the file bytes `b"A-"` the parser returns
`b"A"` — the trailing dash is eaten by `content.rstrip(b"\r\n--")`
(handler.py line 1028) — so the round trip does not hold for every byte
sequence. -/
theorem multipart_roundTrip_cex :
    parse_multipart_form_data mpContentType
        (mkMultipartBody [65, 45] "This is a job description that is long enough to pass x")
      = MPResult.ok [65] "This is a job description that is long enough to pass x" "test.pdf"
    ∧ ([65] : List Nat) ≠ [65, 45] := by
  constructor
  · decide
  · decide

/-- Amended multipart rejection cases (claim C8, corrected): a well-formed
body with no file part gives the file-required error; a well-formed body
whose text part strips to between 1 and 49 characters gives the
minimum-length error (a text part stripping to empty gives the distinct
"Job description is required" error instead, see the counterexample); and a
request whose content-type does not declare multipart/form-data fails with
the content-type error for every body, i.e. before any part splitting. -/
theorem multipart_rejections :
    (∀ jd : String, ¬ OccursIn mpSep (mpSeg2 jd) →
      parse_multipart_form_data mpContentType (mkBodyNoFile jd)
        = .err "PDF file is required")
    ∧ (∀ (fb : List Nat) (jd : String), fb ≠ [] →
        (∀ b, fb.getLast? = some b → isCrLfDash b = false) →
        (∀ b, (strBytes jd).getLast? = some b → isCrLfDash b = false) →
        (∀ c, jd.data.head? = some c → isWsChar c = false) →
        (∀ c, jd.data.getLast? = some c → isWsChar c = false) →
        1 ≤ jd.length → jd.length ≤ 49 →
        ¬ OccursIn mpSep (mpSeg1 fb) → ¬ OccursIn mpSep (mpSeg2 jd) →
        parse_multipart_form_data mpContentType (mkMultipartBody fb jd)
          = .err "Job description must be at least 50 characters")
    ∧ (∀ (ct : String) (body : List Nat), ¬ ("multipart/form-data".data <+: ct.data) →
        parse_multipart_form_data ct body
          = .err "Content-Type must be multipart/form-data") := by
  refine ⟨?_, ?_, ?_⟩
  · intro jd h2
    unfold parse_multipart_form_data
    rw [if_neg (by decide), show extractBoundary mpContentType
      = some "XBOUNDARY1234".data from by decide]
    show parseWithBoundary "XBOUNDARY1234".data (mkBodyNoFile jd) = _
    unfold parseWithBoundary
    rw [show strBytes ⟨'-' :: '-' :: "XBOUNDARY1234".data⟩ = mpSep from by decide]
    rw [mkBodyNoFile_split jd h2]
    simp only [List.foldl_cons, List.foldl_nil, mpSeg2]
    rw [mpProcessPart_nil]
    rw [mpProcessPart_seg _ mpHdrJob (strBytes jd) 67 (strBytes mpHdrJob).tail (by decide)
      (by decide) (by decide) (by decide)]
    rw [mpProcessPart_dashes]
    exact mpFinalize_noPdf _
      (mpHandlePart_job_preserves ⟨none, none, "unknown.pdf"⟩ (strBytes jd ++ [13, 10])).1
  · intro fb jd hfb hfbLast hjdLast hjdHead hjdLastC hjdLen1 hjdLen2 h1 h2
    unfold parse_multipart_form_data
    rw [if_neg (by decide), show extractBoundary mpContentType
      = some "XBOUNDARY1234".data from by decide]
    show parseWithBoundary "XBOUNDARY1234".data (mkMultipartBody fb jd) = _
    unfold parseWithBoundary
    rw [show strBytes ⟨'-' :: '-' :: "XBOUNDARY1234".data⟩ = mpSep from by decide]
    rw [mkMultipartBody_split fb jd h1 h2]
    simp only [List.foldl_cons, List.foldl_nil, mpSeg1, mpSeg2]
    rw [mpProcessPart_nil]
    rw [mpProcessPart_seg _ mpHdrFile fb 67 (strBytes mpHdrFile).tail (by decide)
      (by decide) (by decide) (by decide)]
    rw [mpHandlePart_file _ fb hfbLast]
    rw [mpProcessPart_seg _ mpHdrJob (strBytes jd) 67 (strBytes mpHdrJob).tail (by decide)
      (by decide) (by decide) (by decide)]
    rw [mpHandlePart_job _ jd hjdLast hjdHead hjdLastC]
    rw [mpProcessPart_dashes]
    show mpFinalize ⟨some fb, some jd, "test.pdf"⟩ = _
    have hjdne : jd ≠ "" := by
      intro h
      rw [h] at hjdLen1
      simp [String.length] at hjdLen1
    have hstrip : pyStripChars jd.data = jd.data :=
      pyStripWith_eq_self _ _ hjdHead hjdLastC
    exact mpFinalize_short fb jd "test.pdf" hfb hjdne (by
      rw [hstrip]
      have : jd.data.length = jd.length := rfl
      omega)
  · intro ct body hct
    unfold parse_multipart_form_data
    rw [if_pos hct]

/-- Claim C8, counterexample: a body whose text part strips to zero
characters (fewer than 50) does not fail with the minimum-length error — it
fails with the distinct "Job description is required" error. -/
theorem multipart_rejections_cex :
    parse_multipart_form_data mpContentType (mkMultipartBody [37, 80, 68, 70] "")
      = MPResult.err "Job description is required"
    ∧ MPResult.err "Job description is required"
      ≠ MPResult.err "Job description must be at least 50 characters" := by
  constructor
  · decide
  · decide

/-- Witness instantiating all three conjuncts of `multipart_rejections` on
concrete data. -/
theorem multipart_rejections_witness :
    parse_multipart_form_data mpContentType
        (mkBodyNoFile "This is a job description that is long enough to pass x")
      = MPResult.err "PDF file is required"
    ∧ parse_multipart_form_data mpContentType
        (mkMultipartBody [37, 80, 68, 70] "Python developer needed for cloud work today.")
      = MPResult.err "Job description must be at least 50 characters"
    ∧ parse_multipart_form_data "application/json" [1, 2, 3]
      = MPResult.err "Content-Type must be multipart/form-data" :=
  ⟨multipart_rejections.1 "This is a job description that is long enough to pass x"
      (by decide),
    multipart_rejections.2.1 [37, 80, 68, 70]
      "Python developer needed for cloud work today." (by decide) (by decide)
      (by decide) (by decide) (by decide) (by decide) (by decide) (by decide)
      (by decide),
    multipart_rejections.2.2 "application/json" [1, 2, 3] (by decide)⟩

/-- Witness instantiating `multipart_roundTrip` on concrete data. -/
theorem multipart_roundTrip_witness :
    parse_multipart_form_data mpContentType
        (mkMultipartBody [37, 80, 68, 70]
          "This is a job description that is long enough to pass x")
      = MPResult.ok [37, 80, 68, 70]
          "This is a job description that is long enough to pass x" "test.pdf" :=
  multipart_roundTrip [37, 80, 68, 70]
    "This is a job description that is long enough to pass x"
    (by decide) (by decide) (by decide) (by decide) (by decide) (by decide)
    (by decide) (by decide)

/-- Claim C7 (confirmed): a single detected span of length 20, lying in the
analyzed region, at confidence at or above the 0.7 post-extraction
threshold, is replaced by exactly `min(20, 8) = 8` mask characters, and every
character outside the span is carried over unchanged. -/
theorem pii_mask_single (detect : List Char → List PiiEntity) (text : List Char)
    (e : PiiEntity)
    (hstrip : 10 ≤ (pyStripChars text).length)
    (hdet : detect (text.take 5000) = [e])
    (hconf : 7 / 10 ≤ e.score)
    (hlen : e.endOffset = e.beginOffset + 20)
    (hwin : e.endOffset ≤ 5000)
    (hend : e.endOffset ≤ text.length) :
    apply_pii_redaction_to_text detect text
      = ⟨true, text.take e.beginOffset ++ List.replicate 8 '*' ++ text.drop e.endOffset,
          true⟩ := by
  have hne : text ≠ [] := by
    intro h
    rw [h] at hstrip
    simp [pyStripChars, pyStripWith] at hstrip
  unfold apply_pii_redaction_to_text
  rw [if_neg (by
    rintro (h | h)
    · exact hne h
    · omega)]
  rw [hdet, if_neg (by simp)]
  have hloop : piiRedactLoop [e] text
      = (text.take e.beginOffset ++ List.replicate 8 '*' ++ text.drop e.endOffset, 1) := by
    unfold piiRedactLoop sortByBeginDesc
    simp only [List.foldr, insertEntityDesc, List.foldl]
    unfold redactEntity
    rw [if_pos hconf]
    have hm : min (e.endOffset - e.beginOffset) 8 = 8 := by omega
    simp [hm]
  rw [hloop]
  rfl

/-- Witness instantiating `pii_mask_single` with a concrete text and a
constant detector reporting one span of length 20 at confidence 0.8. -/
theorem pii_mask_single_witness :
    apply_pii_redaction_to_text
        (fun _ => [⟨8 / 10, 2, 22, "NAME"⟩]) "abcdefghij0123456789xyFOOBAR".data
      = ⟨true, "abcdefghij0123456789xyFOOBAR".data.take 2 ++ List.replicate 8 '*' ++
          "abcdefghij0123456789xyFOOBAR".data.drop 22, true⟩ :=
  pii_mask_single (fun _ => [⟨8 / 10, 2, 22, "NAME"⟩]) _ ⟨8 / 10, 2, 22, "NAME"⟩
    (by decide) rfl (by norm_num) rfl (by decide) (by decide)

theorem redactFold_suffix (es : List PiiEntity) :
    ∀ (a b : List Char) (n : Nat),
      (∀ e ∈ es, e.endOffset ≤ a.length) →
      (∀ e ∈ es, e.beginOffset ≤ e.endOffset) →
      es.Pairwise (fun e e2 => e2.endOffset ≤ e.beginOffset) →
      (es.foldl redactEntity (a ++ b, n)).1 = (es.foldl redactEntity (a, n)).1 ++ b := by
  induction es with
  | nil =>
    intro a b n _ _ _
    rfl
  | cons e es' ih =>
    intro a b n hend hbe hpair
    have hea : e.endOffset ≤ a.length := hend e (by simp)
    have heb : e.beginOffset ≤ e.endOffset := hbe e (by simp)
    simp only [List.foldl_cons]
    unfold redactEntity
    by_cases hs : 7 / 10 ≤ e.score
    · rw [if_pos hs, if_pos hs]
      simp only
      have htk : (a ++ b).take e.beginOffset = a.take e.beginOffset :=
        List.take_append_of_le_length (le_trans heb hea)
      have hdr : (a ++ b).drop e.endOffset = a.drop e.endOffset ++ b :=
        List.drop_append_of_le_length hea
      rw [htk, hdr]
      have hassoc : a.take e.beginOffset ++
          List.replicate (min (e.endOffset - e.beginOffset) 8) '*' ++
          (a.drop e.endOffset ++ b)
          = (a.take e.beginOffset ++
            List.replicate (min (e.endOffset - e.beginOffset) 8) '*' ++
            a.drop e.endOffset) ++ b := by
        simp [List.append_assoc]
      rw [hassoc]
      have hlen2 : e.beginOffset ≤ (a.take e.beginOffset ++
          List.replicate (min (e.endOffset - e.beginOffset) 8) '*' ++
          a.drop e.endOffset).length := by
        simp only [List.length_append, List.length_take, List.length_replicate]
        omega
      exact ih _ b (n + 1)
        (fun e2 h2 => le_trans (List.rel_of_pairwise_cons hpair h2) hlen2)
        (fun e2 h2 => hbe e2 (by simp [h2]))
        (List.Pairwise.sublist (List.sublist_cons_self e es') hpair)
    · rw [if_neg hs, if_neg hs]
      exact ih a b n (fun e2 h2 => hend e2 (by simp [h2]))
        (fun e2 h2 => hbe e2 (by simp [h2]))
        (List.Pairwise.sublist (List.sublist_cons_self e es') hpair)

/-- Claim C10 (confirmed, implicit): only the first 5000 characters are
submitted to detection — the result depends on the detector solely through
`text.take 5000` — and, for detectors returning disjoint in-window spans, the
whole text beyond offset 5000 is carried into the output unmodified as a
suffix. -/
theorem pii_window_5000 :
    (∀ (d1 d2 : List Char → List PiiEntity) (text : List Char),
      d1 (text.take 5000) = d2 (text.take 5000) →
      apply_pii_redaction_to_text d1 text = apply_pii_redaction_to_text d2 text)
    ∧ (∀ (d : List Char → List PiiEntity) (text : List Char),
        (∀ e ∈ sortByBeginDesc (d (text.take 5000)), e.endOffset ≤ 5000) →
        (∀ e ∈ sortByBeginDesc (d (text.take 5000)), e.beginOffset ≤ e.endOffset) →
        (sortByBeginDesc (d (text.take 5000))).Pairwise
          (fun e e2 => e2.endOffset ≤ e.beginOffset) →
        ∃ pre, (apply_pii_redaction_to_text d text).text = pre ++ text.drop 5000) := by
  constructor
  · intro d1 d2 text h
    unfold apply_pii_redaction_to_text piiRedactLoop
    rw [h]
  · intro d text hend hbe hpair
    by_cases hlenT : text.length ≤ 5000
    · refine ⟨(apply_pii_redaction_to_text d text).text, ?_⟩
      rw [List.drop_eq_nil_iff.mpr hlenT, List.append_nil]
    · push_neg at hlenT
      have htake : (text.take 5000).length = 5000 := by
        rw [List.length_take]
        omega
      have hsplit : text.take 5000 ++ text.drop 5000 = text := List.take_append_drop _ _
      unfold apply_pii_redaction_to_text
      by_cases hshort : text = [] ∨ (pyStripChars text).length < 10
      · rw [if_pos hshort]
        exact ⟨text.take 5000, hsplit.symm⟩
      rw [if_neg hshort]
      by_cases hdet : d (text.take 5000) = []
      · rw [if_pos hdet]
        exact ⟨text.take 5000, hsplit.symm⟩
      rw [if_neg hdet]
      by_cases hcount : 0 < (piiRedactLoop (d (text.take 5000)) text).2
      · rw [if_pos hcount]
        have hfold := redactFold_suffix (sortByBeginDesc (d (text.take 5000)))
          (text.take 5000) (text.drop 5000) 0
          (fun e h => le_of_le_of_eq (hend e h) htake.symm) hbe hpair
        rw [hsplit] at hfold
        exact ⟨_, hfold⟩
      · rw [if_neg hcount]
        exact ⟨text.take 5000, hsplit.symm⟩

/-- Witness instantiating both conjuncts of `pii_window_5000`: two detectors
agreeing on the first 5000 characters of a text, and a detector with one
in-window span. -/
theorem pii_window_5000_witness :
    apply_pii_redaction_to_text (fun _ => [⟨8 / 10, 2, 22, "NAME"⟩])
        "abcdefghij0123456789xyFOOBAR".data
      = apply_pii_redaction_to_text (fun l => if l.length ≤ 5000 then
          [⟨8 / 10, 2, 22, "NAME"⟩] else []) "abcdefghij0123456789xyFOOBAR".data
    ∧ ∃ pre, (apply_pii_redaction_to_text (fun _ => [⟨8 / 10, 2, 22, "NAME"⟩])
        "abcdefghij0123456789xyFOOBAR".data).text
      = pre ++ "abcdefghij0123456789xyFOOBAR".data.drop 5000 :=
  ⟨pii_window_5000.1 (fun _ => [⟨8 / 10, 2, 22, "NAME"⟩])
      (fun l => if l.length ≤ 5000 then [⟨8 / 10, 2, 22, "NAME"⟩] else [])
      "abcdefghij0123456789xyFOOBAR".data rfl,
    pii_window_5000.2 (fun _ => [⟨8 / 10, 2, 22, "NAME"⟩])
      "abcdefghij0123456789xyFOOBAR".data (by decide) (by decide) (by decide)⟩

theorem check_dedup_miss (sha : List Nat → String) (s3 : S3St) (st : CacheSt)
    (bucket key : String) (B : List Nat)
    (hS3 : s3 bucket key = some B) (hBne : B ≠ []) (hMiss : st (sha B) = none) :
    check_file_deduplication sha s3 noFaults st bucket key
      = ⟨false, some (sha B), none, "File is unique - proceeding with processing"⟩ := by
  have hhash : calculate_s3_file_hash sha s3 noFaults bucket key = some (sha B) := by
    unfold calculate_s3_file_hash
    rw [if_neg (by simp [noFaults]), hS3]
    simp only [calculate_file_hash, if_neg hBne]
  unfold check_file_deduplication
  rw [hhash]
  simp only [get_resume_cache, noFaults, Bool.false_eq_true, if_false, hMiss]

theorem check_dedup_hit (sha : List Nat → String) (s3 : S3St) (st : CacheSt)
    (bucket key : String) (B : List Nat) (en : CacheEntry)
    (hS3 : s3 bucket key = some B) (hBne : B ≠ []) (hHit : st (sha B) = some en) :
    check_file_deduplication sha s3 noFaults st bucket key
      = ⟨true, some (sha B), some en,
          "Resume already processed - using existing data from "
            ++ en.original_filename⟩ := by
  have hhash : calculate_s3_file_hash sha s3 noFaults bucket key = some (sha B) := by
    unfold calculate_s3_file_hash
    rw [if_neg (by simp [noFaults]), hS3]
    simp only [calculate_file_hash, if_neg hBne]
  unfold check_file_deduplication
  rw [hhash]
  simp only [get_resume_cache, noFaults, Bool.false_eq_true, if_false, hHit]

theorem cpAnalyzeReport_ok (svc : Services) (envReports : Option String)
    (ev : CPEvent) (t status : String) (dedup : DedupResult) (st : CacheSt)
    (ad : AnalysisData) (pkg : ReportPackage)
    (hA : svc.analyze t ev.job_description = .ok ad)
    (hR : svc.report ad (cpReportsBucket envReports ev) (cpResumeFilename ev)
      (ev.job_title.getD "Position") = .ok pkg) :
    cpAnalyzeReport svc envReports ev t status dedup st
      = (.ok ⟨"completed", status, dedup.message, t.length,
          ev.job_description.length, ad.compatibility_score,
          ad.missing_keywords.length, ad.suggestions.length, ad.strengths.length,
          pkg.report_id⟩, st) := by
  simp only [cpAnalyzeReport, hA, hR]

theorem cpAnalyzeReport_reportFail (svc : Services) (envReports : Option String)
    (ev : CPEvent) (t status : String) (dedup : DedupResult) (st : CacheSt)
    (ad : AnalysisData) (e : String)
    (hA : svc.analyze t ev.job_description = .ok ad)
    (hR : svc.report ad (cpReportsBucket envReports ev) (cpResumeFilename ev)
      (ev.job_title.getD "Position") = .fail e) :
    cpAnalyzeReport svc envReports ev t status dedup st
      = (.err 500 ("Report generation failed: " ++ e), st) := by
  simp only [cpAnalyzeReport, hA, hR]

theorem pipeline_first_run (svc : Services) (envReports : Option String)
    (st : CacheSt) (ev : CPEvent) (B : List Nat) (T : String)
    (hS3 : svc.s3 ev.bucket_name ev.s3_key = some B) (hBne : B ≠ [])
    (hMiss : st (svc.sha B) = none)
    (hExtract : svc.textract ev.bucket_name ev.s3_key = .ok T) :
    handle_complete_pipeline svc envReports noFaults st ev
      = cpAnalyzeReport svc envReports ev (piiApplied svc T) "processed"
          ⟨false, some (svc.sha B), none, "File is unique - proceeding with processing"⟩
          (cacheInsert st (svc.sha B)
            ⟨svc.sha B, piiApplied svc T, cpResumeFilename ev,
              svc.now + 12 * 60 * 60⟩) := by
  unfold handle_complete_pipeline
  rw [check_dedup_miss svc.sha svc.s3 st ev.bucket_name ev.s3_key B hS3 hBne hMiss]
  unfold cpWithDedup
  rw [if_neg (by simp)]
  rw [hExtract]
  show cpAnalyzeReport svc envReports ev (piiApplied svc T) "processed" _
      (store_processed_file noFaults svc.now st (svc.sha B) (piiApplied svc T)
        (cpResumeFilename ev)).2 = _
  simp only [store_processed_file, put_resume_cache, noFaults, Bool.false_eq_true,
    if_false]

theorem pipeline_hit_run (svc : Services) (envReports : Option String)
    (st : CacheSt) (ev : CPEvent) (B : List Nat) (en : CacheEntry)
    (hS3 : svc.s3 ev.bucket_name ev.s3_key = some B) (hBne : B ≠ [])
    (hHit : st (svc.sha B) = some en) :
    handle_complete_pipeline svc envReports noFaults st ev
      = cpAnalyzeReport svc envReports ev en.extracted_text "deduplicated"
          ⟨true, some (svc.sha B), some en,
            "Resume already processed - using existing data from "
              ++ en.original_filename⟩ st := by
  unfold handle_complete_pipeline
  rw [check_dedup_hit svc.sha svc.s3 st ev.bucket_name ev.s3_key B en hS3 hBne hHit]
  unfold cpWithDedup
  rw [if_pos (by simp)]
  rfl

/-- Claim C2 (confirmed): with the collaborators deterministic and
succeeding, a first invocation on bytes `B` and job description `J` (cache
miss, successful store) answers with dedup status `processed`, and a second
invocation on the unchanged world answers `deduplicated` with the same
`extracted_text_length`, the cache state unchanged. -/
theorem pipeline_dedup_idempotent (svc : Services) (envReports : Option String)
    (st0 : CacheSt) (ev : CPEvent) (B : List Nat) (T : String)
    (ad : AnalysisData) (pkg : ReportPackage)
    (hS3 : svc.s3 ev.bucket_name ev.s3_key = some B) (hBne : B ≠ [])
    (hMiss : st0 (svc.sha B) = none)
    (hExtract : svc.textract ev.bucket_name ev.s3_key = .ok T)
    (hAnalyze : svc.analyze (piiApplied svc T) ev.job_description = .ok ad)
    (hReport : svc.report ad (cpReportsBucket envReports ev) (cpResumeFilename ev)
      (ev.job_title.getD "Position") = .ok pkg) :
    ∃ (b1 b2 : CPBody) (st1 : CacheSt),
      handle_complete_pipeline svc envReports noFaults st0 ev = (.ok b1, st1)
      ∧ handle_complete_pipeline svc envReports noFaults st1 ev = (.ok b2, st1)
      ∧ b1.dedup_status = "processed"
      ∧ b2.dedup_status = "deduplicated"
      ∧ b2.extracted_text_length = b1.extracted_text_length := by
  have h1 := pipeline_first_run svc envReports st0 ev B T hS3 hBne hMiss hExtract
  rw [cpAnalyzeReport_ok svc envReports ev (piiApplied svc T) "processed" _ _ ad pkg
    hAnalyze hReport] at h1
  have hHit : cacheInsert st0 (svc.sha B)
      ⟨svc.sha B, piiApplied svc T, cpResumeFilename ev, svc.now + 12 * 60 * 60⟩
      (svc.sha B)
      = some ⟨svc.sha B, piiApplied svc T, cpResumeFilename ev,
          svc.now + 12 * 60 * 60⟩ := by
    unfold cacheInsert
    rw [if_pos rfl]
  have h2 := pipeline_hit_run svc envReports _ ev B
    ⟨svc.sha B, piiApplied svc T, cpResumeFilename ev, svc.now + 12 * 60 * 60⟩
    hS3 hBne hHit
  rw [cpAnalyzeReport_ok svc envReports ev _ "deduplicated" _ _ ad pkg hAnalyze
    hReport] at h2
  exact ⟨_, _, _, h1, h2, rfl, rfl, rfl⟩

/-- Claim C5 (confirmed): any injected failure in fingerprint hashing or
cache lookup makes the dedup check report the file as unique
(`is_duplicate = false`), and under every combination of dedup-layer faults
(hashing, lookup, store) the pipeline still returns a success envelope
whenever extraction, analysis and report generation succeed — dedup-layer
failures never surface as a failure envelope. -/
theorem dedup_error_absorption (svc : Services) (envReports : Option String)
    (ev : CPEvent) (T : String)
    (hExtract : svc.textract ev.bucket_name ev.s3_key = .ok T)
    (hAnalyze : ∀ t, ∃ ad, svc.analyze t ev.job_description = .ok ad)
    (hReport : ∀ ad, ∃ pkg, svc.report ad (cpReportsBucket envReports ev)
      (cpResumeFilename ev) (ev.job_title.getD "Position") = .ok pkg) :
    ∀ (f : DedupFaults) (st : CacheSt),
      ((f.s3GetFails = true ∨ f.ddbGetFails = true) →
        (check_file_deduplication svc.sha svc.s3 f st
          ev.bucket_name ev.s3_key).is_duplicate = false)
      ∧ ∃ (b : CPBody) (st2 : CacheSt),
          handle_complete_pipeline svc envReports f st ev = (CPResp.ok b, st2) := by
  have hok : ∀ (f : DedupFaults) (st : CacheSt) (dedup : DedupResult),
      ∃ (b : CPBody) (st2 : CacheSt),
        cpWithDedup svc envReports f st ev dedup = (CPResp.ok b, st2) := by
    intro f st dedup
    by_cases hdup : dedup.is_duplicate = true
    · obtain ⟨ad, hA⟩ := hAnalyze (dedup.cached_data.getD ⟨"", "", "", 0⟩).extracted_text
      obtain ⟨pkg, hR⟩ := hReport ad
      have hh : cpWithDedup svc envReports f st ev dedup
          = (CPResp.ok ⟨"completed", "deduplicated", dedup.message,
              (dedup.cached_data.getD ⟨"", "", "", 0⟩).extracted_text.length,
              ev.job_description.length, ad.compatibility_score,
              ad.missing_keywords.length, ad.suggestions.length,
              ad.strengths.length, pkg.report_id⟩, st) := by
        unfold cpWithDedup
        rw [if_pos hdup, cpAnalyzeReport_ok svc envReports ev _ _ _ _ ad pkg hA hR]
      exact ⟨_, _, hh⟩
    · obtain ⟨ad, hA⟩ := hAnalyze (piiApplied svc T)
      obtain ⟨pkg, hR⟩ := hReport ad
      cases hfh : dedup.file_hash with
      | none =>
        have hh : cpWithDedup svc envReports f st ev dedup
            = (CPResp.ok ⟨"completed", "processed", dedup.message,
                (piiApplied svc T).length, ev.job_description.length,
                ad.compatibility_score, ad.missing_keywords.length,
                ad.suggestions.length, ad.strengths.length, pkg.report_id⟩, st) := by
          simp only [cpWithDedup, if_neg hdup, hExtract, hfh]
          rw [cpAnalyzeReport_ok svc envReports ev _ _ _ _ ad pkg hA hR]
        exact ⟨_, _, hh⟩
      | some h =>
        have hh : cpWithDedup svc envReports f st ev dedup
            = (CPResp.ok ⟨"completed", "processed", dedup.message,
                (piiApplied svc T).length, ev.job_description.length,
                ad.compatibility_score, ad.missing_keywords.length,
                ad.suggestions.length, ad.strengths.length, pkg.report_id⟩,
              (store_processed_file f svc.now st h (piiApplied svc T)
                (cpResumeFilename ev)).2) := by
          simp only [cpWithDedup, if_neg hdup, hExtract, hfh]
          rw [cpAnalyzeReport_ok svc envReports ev _ _ _ _ ad pkg hA hR]
        exact ⟨_, _, hh⟩
  intro f st
  constructor
  · rintro (hf | hf)
    · simp only [check_file_deduplication, calculate_s3_file_hash, if_pos hf]
    · unfold check_file_deduplication
      cases hh : calculate_s3_file_hash svc.sha svc.s3 f ev.bucket_name ev.s3_key with
      | none => rfl
      | some h => simp only [get_resume_cache, if_pos hf]
  · exact hok f st _

/-- Claim C6 (confirmed): when report-package generation fails after a
successful analysis, the AnalysisOnly path still returns a success envelope
carrying the full analysis summary and the explicit "reports were not saved
to S3" note, while the CompletePipeline path returns a 500 failure
envelope. -/
theorem report_failure_asymmetry (svc : Services) (envReports : Option String)
    (caEv : CAEvent) (cpEv : CPEvent) (st : CacheSt)
    (ad adp : AnalysisData) (e ep : String) (B : List Nat) (T : String)
    (hSG : CaShouldGenerate (caReportsBucket envReports caEv))
    (hA : svc.analyze caEv.resume_text caEv.job_description = .ok ad)
    (hR : svc.report ad (caReportsBucket envReports caEv)
      (caEv.resume_filename.getD "resume.txt") (caEv.job_title.getD "Position")
      = .fail e)
    (hS3 : svc.s3 cpEv.bucket_name cpEv.s3_key = some B) (hBne : B ≠ [])
    (hMiss : st (svc.sha B) = none)
    (hExtract : svc.textract cpEv.bucket_name cpEv.s3_key = .ok T)
    (hAp : svc.analyze (piiApplied svc T) cpEv.job_description = .ok adp)
    (hRp : svc.report adp (cpReportsBucket envReports cpEv) (cpResumeFilename cpEv)
      (cpEv.job_title.getD "Position") = .fail ep) :
    handle_complete_analysis svc envReports caEv
      = .ok ⟨"analysis_only", ad.compatibility_score, ad.missing_keywords.length,
          ad.suggestions.length, ad.strengths.length,
          .localFallback
            ("local-" ++ caEv.resume_filename.getD "resume.txt" ++ "-"
              ++ caEv.job_title.getD "Position")
            "local-execution"
            "Analysis completed successfully but reports were not saved to S3" e⟩
    ∧ (handle_complete_pipeline svc envReports noFaults st cpEv).1
      = .err 500 ("Report generation failed: " ++ ep) := by
  constructor
  · simp only [handle_complete_analysis, hA, if_pos hSG, hR]
  · rw [pipeline_first_run svc envReports st cpEv B T hS3 hBne hMiss hExtract]
    rw [cpAnalyzeReport_reportFail svc envReports cpEv _ _ _ _ adp ep hAp hRp]

/-- Witness instantiating `pipeline_dedup_idempotent` in the demo
environment with an empty initial cache. -/
theorem pipeline_dedup_idempotent_witness :
    ∃ (b1 b2 : CPBody) (st1 : CacheSt),
      handle_complete_pipeline demoSvc none noFaults (fun _ => none) demoCPEvent
        = (.ok b1, st1)
      ∧ handle_complete_pipeline demoSvc none noFaults st1 demoCPEvent = (.ok b2, st1)
      ∧ b1.dedup_status = "processed"
      ∧ b2.dedup_status = "deduplicated"
      ∧ b2.extracted_text_length = b1.extracted_text_length :=
  pipeline_dedup_idempotent demoSvc none (fun _ => none) demoCPEvent [1, 2, 3]
    "resume text content here" ⟨75, ["aws"], ["s1", "s2", "s3"], ["python"]⟩
    ⟨"rid1", "ts1", "mk", "mu", "mx", "hk", "hu", "hx", "meta"⟩
    (by decide) (by decide) rfl (by decide) rfl rfl

/-- Witness instantiating `dedup_error_absorption` with all three dedup
faults switched on. -/
theorem dedup_error_absorption_witness :
    ((DedupFaults.mk true true true).s3GetFails = true ∨
        (DedupFaults.mk true true true).ddbGetFails = true →
      (check_file_deduplication demoSvc.sha demoSvc.s3 ⟨true, true, true⟩
        (fun _ => none) demoCPEvent.bucket_name demoCPEvent.s3_key).is_duplicate = false)
    ∧ ∃ (b : CPBody) (st2 : CacheSt),
        handle_complete_pipeline demoSvc none ⟨true, true, true⟩ (fun _ => none)
          demoCPEvent = (CPResp.ok b, st2) :=
  dedup_error_absorption demoSvc none demoCPEvent "resume text content here"
    (by decide)
    (fun _ => ⟨⟨75, ["aws"], ["s1", "s2", "s3"], ["python"]⟩, rfl⟩)
    (fun _ => ⟨⟨"rid1", "ts1", "mk", "mu", "mx", "hk", "hu", "hx", "meta"⟩, rfl⟩)
    ⟨true, true, true⟩ (fun _ => none)

/-- Witness instantiating `report_failure_asymmetry` in the demo environment
with failing report persistence. -/
theorem report_failure_asymmetry_witness :
    handle_complete_analysis demoSvcReportFail none demoCAEvent
      = .ok ⟨"analysis_only", 75, 1, 3, 1,
          .localFallback "local-resume.txt-Position" "local-execution"
            "Analysis completed successfully but reports were not saved to S3"
            "S3 upload failed"⟩
    ∧ (handle_complete_pipeline demoSvcReportFail none noFaults (fun _ => none)
        demoCPEvent).1
      = .err 500 ("Report generation failed: " ++ "S3 upload failed") :=
  report_failure_asymmetry demoSvcReportFail none demoCAEvent demoCPEvent
    (fun _ => none) ⟨75, ["aws"], ["s1", "s2", "s3"], ["python"]⟩
    ⟨75, ["aws"], ["s1", "s2", "s3"], ["python"]⟩ "S3 upload failed" "S3 upload failed"
    [1, 2, 3] "resume text content here"
    (by decide) rfl rfl (by decide) (by decide) rfl (by decide) rfl rfl

theorem pollLoopAux_timeout (g : Nat → JobStatus) (t : String) :
    ∀ (fuel elapsed : Nat),
      (∀ k, k < fuel → g (elapsed + pollInterval * (k + 1)) = .inProgress ∨
        g (elapsed + pollInterval * (k + 1)) = .partialSuccess) →
      pollLoopAux g t fuel elapsed
        = (.err "Textract job timed out after 300 seconds. Large PDFs may take longer to process.",
            elapsed + pollInterval * fuel) := by
  intro fuel
  induction fuel with
  | zero =>
    intro elapsed _
    simp [pollLoopAux]
  | succ n ih =>
    intro elapsed h
    have h0 := h 0 (by omega)
    rw [show elapsed + pollInterval * (0 + 1) = elapsed + pollInterval by ring] at h0
    have hnext : ∀ k, k < n →
        g (elapsed + pollInterval + pollInterval * (k + 1)) = .inProgress ∨
        g (elapsed + pollInterval + pollInterval * (k + 1)) = .partialSuccess := by
      intro k hk
      have := h (k + 1) (by omega)
      have harith : elapsed + pollInterval * (k + 1 + 1)
          = elapsed + pollInterval + pollInterval * (k + 1) := by
        simp [pollInterval]
        omega
      rwa [harith] at this
    have harith2 : elapsed + pollInterval + pollInterval * n
        = elapsed + pollInterval * (n + 1) := by
      simp [pollInterval]
      omega
    rcases h0 with h0 | h0 <;>
    · simp only [pollLoopAux, h0]
      rw [ih _ hnext, harith2]

theorem pollLoopAux_bound (g : Nat → JobStatus) (t : String) :
    ∀ (fuel elapsed : Nat),
      (pollLoopAux g t fuel elapsed).2 ≤ elapsed + pollInterval * fuel := by
  intro fuel
  induction fuel with
  | zero =>
    intro elapsed
    simp [pollLoopAux]
  | succ n ih =>
    intro elapsed
    have hle : elapsed + pollInterval ≤ elapsed + pollInterval * (n + 1) := by
      simp only [pollInterval]
      omega
    have hrec : elapsed + pollInterval + pollInterval * n
        = elapsed + pollInterval * (n + 1) := by
      simp only [pollInterval]
      omega
    cases hst : g (elapsed + pollInterval) with
    | succeeded =>
      simp only [pollLoopAux, hst]
      by_cases hs : pyStripChars t.data = []
      · rw [if_pos hs]
        exact hle
      · rw [if_neg hs]
        exact hle
    | failed m =>
      simp only [pollLoopAux, hst]
      exact hle
    | inProgress =>
      simp only [pollLoopAux, hst]
      exact le_of_le_of_eq (ih (elapsed + pollInterval)) hrec
    | partialSuccess =>
      simp only [pollLoopAux, hst]
      exact le_of_le_of_eq (ih (elapsed + pollInterval)) hrec
    | other s =>
      simp only [pollLoopAux, hst]
      exact hle

/-- Claim C9 (confirmed): the asynchronous extraction polls at a fixed
5-second interval under a 300-second ceiling; the loop always terminates
with total wait at most 300 seconds, and when no poll within the ceiling
observes a terminal status the call returns the terminal timeout error at
elapsed time 300. -/
theorem extract_text_async_bounded :
    (∀ (g : Nat → JobStatus) (t : String),
      (∀ k, k < maxWaitTime / pollInterval →
        g (pollInterval * (k + 1)) = .inProgress ∨
        g (pollInterval * (k + 1)) = .partialSuccess) →
      extract_text_async g t
        = (.err "Textract job timed out after 300 seconds. Large PDFs may take longer to process.",
            maxWaitTime))
    ∧ (∀ (g : Nat → JobStatus) (t : String),
        (extract_text_async g t).2 ≤ maxWaitTime) := by
  constructor
  · intro g t h
    unfold extract_text_async
    rw [pollLoopAux_timeout g t _ 0 (by
      intro k hk
      simpa using h k hk)]
    simp [maxWaitTime, pollInterval]
  · intro g t
    have := pollLoopAux_bound g t (maxWaitTime / pollInterval) 0
    unfold extract_text_async
    simp only [maxWaitTime, pollInterval] at this ⊢
    omega

/-- Witness instantiating `extract_text_async_bounded` with a job that is
forever in progress. -/
theorem extract_text_async_bounded_witness :
    extract_text_async (fun _ => .inProgress) "some text"
      = (.err "Textract job timed out after 300 seconds. Large PDFs may take longer to process.",
          maxWaitTime)
    ∧ (extract_text_async (fun _ => .inProgress) "some text").2 ≤ maxWaitTime :=
  ⟨extract_text_async_bounded.1 (fun _ => .inProgress) "some text"
      (fun k _ => Or.inl rfl),
    extract_text_async_bounded.2 (fun _ => .inProgress) "some text"⟩

theorem pyClamp_bounds (x : PyFloat) :
    ∃ q : Rat, pyMax0 (pyMin100 x) = .rat q ∧ 0 ≤ q ∧ q ≤ 100 := by
  cases x with
  | rat q =>
    simp only [pyMin100]
    by_cases h : q < 100
    · rw [if_pos h]
      simp only [pyMax0]
      by_cases h2 : q > 0
      · rw [if_pos h2]
        exact ⟨q, rfl, le_of_lt h2, le_of_lt h⟩
      · rw [if_neg h2]
        exact ⟨0, rfl, le_refl 0, by norm_num⟩
    · rw [if_neg h]
      simp only [pyMax0]
      rw [if_pos (by norm_num)]
      exact ⟨100, rfl, by norm_num, le_refl _⟩
  | nan =>
    refine ⟨100, ?_, by norm_num, le_refl _⟩
    simp only [pyMin100, pyMax0]
    rw [if_pos (by norm_num)]
  | inf =>
    refine ⟨100, ?_, by norm_num, le_refl _⟩
    simp only [pyMin100, pyMax0]
    rw [if_pos (by norm_num)]
  | ninf => exact ⟨0, rfl, le_refl _, by norm_num⟩

theorem repairSuggestions_length (s : List JVal) : 3 ≤ (repairSuggestions s).length := by
  unfold repairSuggestions
  by_cases h : s.length < 3
  · rw [if_pos h]
    simp [suggestionDefaults]
  · rw [if_neg h]
    omega

/-- Claim C3 (confirmed): whenever `_parse_analysis_response` returns
success, the repaired analysis has a compatibility score that is a finite
number in [0, 100] and a suggestions list of length at least 3 —
out-of-range or non-finite scores are clamped, unparseable scores default to
50, and short suggestion lists are padded with the generic defaults. -/
theorem parse_analysis_response_invariants
    (decoded : Option (List (String × JVal))) (d : AnalysisParsed)
    (h : parse_analysis_response decoded = .success d) :
    (∃ q : Rat, d.compatibility_score = .rat q ∧ 0 ≤ q ∧ q ≤ 100)
    ∧ 3 ≤ d.suggestions.length := by
  cases decoded with
  | none => exact absurd h (by simp [parse_analysis_response])
  | some fields =>
    simp only [parse_analysis_response] at h
    by_cases h1 : (jGet fields "missing_keywords").isNone
    · rw [if_pos h1] at h
      exact absurd h (by simp)
    by_cases h2 : (jGet fields "missing_skills").isNone
    · rw [if_neg h1, if_pos h2] at h
      exact absurd h (by simp)
    by_cases h3 : (jGet fields "suggestions").isNone
    · rw [if_neg h1, if_neg h2, if_pos h3] at h
      exact absurd h (by simp)
    by_cases h4 : (jGet fields "compatibility_score").isNone
    · rw [if_neg h1, if_neg h2, if_neg h3, if_pos h4] at h
      exact absurd h (by simp)
    rw [if_neg h1, if_neg h2, if_neg h3, if_neg h4] at h
    have hd := (PAResult.success.injEq _ _).mp h.symm
    subst hd
    constructor
    · cases htf : toPyFloat ((jGet fields "compatibility_score").getD .null) with
      | some x =>
        simp only [htf]
        exact pyClamp_bounds x
      | none =>
        simp only [htf]
        exact ⟨50, rfl, by norm_num, by norm_num⟩
    · exact repairSuggestions_length _

/-- Witness instantiating `parse_analysis_response_invariants`: an upstream
object with an out-of-range score (250) and a single suggestion. -/
theorem parse_analysis_response_invariants_witness :
    (∃ q : Rat,
      (AnalysisParsed.mk []
        (.obj [("technical", .arr []), ("soft", .arr [])])
        (repairSuggestions [.str "a"]) (.rat 100) (.arr []) (.arr [])).compatibility_score
        = .rat q ∧ 0 ≤ q ∧ q ≤ 100)
    ∧ 3 ≤ (AnalysisParsed.mk []
        (.obj [("technical", .arr []), ("soft", .arr [])])
        (repairSuggestions [.str "a"]) (.rat 100) (.arr []) (.arr [])).suggestions.length :=
  parse_analysis_response_invariants
    (some [("missing_keywords", .arr []), ("missing_skills", .str "broken"),
      ("suggestions", .arr [.str "a"]), ("compatibility_score", .num (.rat 250))])
    _ rfl

/-- Claim C4 (confirmed): shape classification follows the
CompletePipeline → StorageEvent → DirectExtraction → AnalysisOnly precedence;
each of the four shapes, given minimally valid fields, classifies to exactly
that shape; required text fields must be non-empty after trimming; and the
empty event is invalid with a descriptive error. -/
theorem validate_input_shapes :
    (∀ b k jdesc : String, ¬ pyStripStr jdesc = "" →
      validate_input ⟨some b, some k, some jdesc, none, none⟩
        = .valid "complete_pipeline")
    ∧ (∀ rs : List Unit, rs ≠ [] →
        validate_input ⟨none, none, none, some rs, none⟩ = .valid "s3_upload")
    ∧ (∀ b k : String,
        validate_input ⟨some b, some k, none, none, none⟩ = .valid "direct_extraction")
    ∧ (∀ rt jdesc : String, ¬ pyStripStr rt = "" → ¬ pyStripStr jdesc = "" →
        validate_input ⟨none, none, some jdesc, none, some rt⟩ = .valid "analysis_only")
    ∧ (∀ b k jdesc : String, pyStripStr jdesc = "" →
        validate_input ⟨some b, some k, some jdesc, none, none⟩
          = .invalid "Job description cannot be empty")
    ∧ (∀ rt jdesc : String, pyStripStr rt = "" →
        validate_input ⟨none, none, some jdesc, none, some rt⟩
          = .invalid "Resume text cannot be empty")
    ∧ validate_input ⟨none, none, none, none, none⟩
        = .invalid "Invalid event format. Expected: complete pipeline (bucket_name + s3_key + job_description), S3 upload event, direct extraction (bucket_name + s3_key), or analysis only (resume_text + job_description)" := by
  refine ⟨?_, ?_, ?_, ?_, ?_, ?_, ?_⟩
  · intro b k jdesc h
    unfold validate_input
    rw [if_pos (by simp), if_neg (by simpa using h)]
  · intro rs h
    unfold validate_input
    rw [if_neg (by simp), if_pos (by simpa using h)]
  · intro b k
    unfold validate_input
    rw [if_neg (by simp), if_neg (by simp), if_pos (by simp)]
  · intro rt jdesc hrt hjd
    unfold validate_input
    rw [if_neg (by simp), if_neg (by simp), if_neg (by simp), if_pos (by simp),
      if_neg (by simpa using hrt), if_neg (by simpa using hjd)]
  · intro b k jdesc h
    unfold validate_input
    rw [if_pos (by simp), if_pos (by simpa using h)]
  · intro rt jdesc h
    unfold validate_input
    rw [if_neg (by simp), if_neg (by simp), if_neg (by simp), if_pos (by simp),
      if_pos (by simpa using h)]
  · rfl

/-- Witness instantiating every conjunct of `validate_input_shapes` on
concrete events. -/
theorem validate_input_shapes_witness :
    validate_input ⟨some "b", some "k", some "Software engineer role", none, none⟩
      = VResult.valid "complete_pipeline"
    ∧ validate_input ⟨none, none, none, some [()], none⟩ = VResult.valid "s3_upload"
    ∧ validate_input ⟨some "b", some "k", none, none, none⟩
      = VResult.valid "direct_extraction"
    ∧ validate_input ⟨none, none, some "Software engineer role", none, some "resume body"⟩
      = VResult.valid "analysis_only"
    ∧ validate_input ⟨some "b", some "k", some "   ", none, none⟩
      = VResult.invalid "Job description cannot be empty"
    ∧ validate_input ⟨none, none, some "Software engineer role", none, some " "⟩
      = VResult.invalid "Resume text cannot be empty" :=
  ⟨validate_input_shapes.1 "b" "k" "Software engineer role" (by decide),
    validate_input_shapes.2.1 [()] (by simp),
    validate_input_shapes.2.2.1 "b" "k",
    validate_input_shapes.2.2.2.1 "resume body" "Software engineer role" (by decide)
      (by decide),
    validate_input_shapes.2.2.2.2.1 "b" "k" "   " (by decide),
    validate_input_shapes.2.2.2.2.2.1 " " "Software engineer role" (by decide)⟩

end AtsBuddy
